import Mathlib

/-!
# Verification of the Telegram streaming bot (`src/main.py`)

Shallow embedding of the bot's core algorithms in Lean 4, together with
theorems settling the specification claims.  Strings from the Python source
are modelled as `String` / `List Char`; external, nondeterministic events
(Telegram API call outcomes, exceptions raised by library calls, wall-clock
throttling decisions) are modelled by explicit oracle records, so that every
control-flow branch of the Python source is reachable in the model.

Conventions:
* Python `str` slicing `text[start:]` is represented by working on the
  remaining suffix of the character list.
* Python machine integers are modelled by `Int` / `Nat` (no overflow is
  relevant anywhere in this code).
* `datetime` values are modelled by integers: an epoch timestamp for
  `datetime.datetime`, a day ordinal for `datetime.date`.
-/

namespace TgBot

/-! ## Constants (src/main.py lines 83-87) -/

def CONVERSATION_HISTORY_LIMIT : Nat := 5

def TELEGRAM_MAX_LENGTH : Nat := 4000

/-! ## `split_text` (src/main.py lines 729-761)

```python
def split_text(text: str, length: int = TELEGRAM_MAX_LENGTH) -> list[str]:
    if len(text) <= length:
        return [text]
    chunks = []
    start = 0
    while start < len(text):
        end = start + length
        if end >= len(text):
            chunks.append(text[start:])
            break
        split_pos = -1
        for i in range(end - 1, start - 1, -1):
            if text[i] == '\n':
                split_pos = i + 1
                break
            elif text[i] == ' ':
                split_pos = i + 1
                break
        if split_pos != -1 and split_pos > start:
            chunks.append(text[start:split_pos])
            start = split_pos
        else:
            chunks.append(text[start:end])
            start = end
    return chunks
```

The `while` loop only ever looks at `text[start:]`; we therefore embed it
structurally over the remaining suffix.  The backward `for` loop over
`range(end-1, start-1, -1)` stops at the first index whose character is a
newline or a space, i.e. it finds the LAST newline-or-space inside the
current window; `lastBreakIdx` computes exactly that index (relative to the
window start).  `split_pos = i+1 > start` always holds when the scan hits,
so the `split_pos > start` guard of the source is vacuous in the hit case.
The recursion is driven by a fuel argument (`text.length` steps suffice for
every positive `length`, since each iteration consumes at least one
character); Python itself would not terminate for `length = 0` on a
non-empty string. -/

def isBreakChar (c : Char) : Bool := c = '\n' || c = ' '

/-- Index of the last newline-or-space in the list (the first hit of the
backward scan `for i in range(end-1, start-1, -1)`), if any. -/
def lastBreakIdx : List Char → Option Nat
  | [] => none
  | c :: cs =>
    match lastBreakIdx cs with
    | some i => some (i + 1)
    | none => if isBreakChar c then some 0 else none

def splitTextGo (length : Nat) : Nat → List Char → List (List Char)
  | 0, _ => []
  | fuel + 1, s =>
    if s = [] then []
    else if s.length ≤ length then [s]
    else
      match lastBreakIdx (s.take length) with
      | some i => s.take (i + 1) :: splitTextGo length fuel (s.drop (i + 1))
      | none => s.take length :: splitTextGo length fuel (s.drop length)

def split_text (text : String) (length : Nat) : List String :=
  if text.length ≤ length then [text]
  else (splitTextGo length text.data.length text.data).map (fun l => ⟨l⟩)

/-- Concatenation of a list of strings (ordered). -/
def concatStrings : List String → String
  | [] => ""
  | s :: rest => s ++ concatStrings rest


/-! ### The amended boundary rule, stated independently

The amended claim describes the boundary as: "break just after the last
newline-or-space character of the window (whichever kind occurs last), else
hard-cut at exactly `length`".  We state this with a different formulation —
the length of the trailing run of non-break characters of the window — and
prove it equal to the embedded code. -/

/-- Cut position after the last break character of `w`, computed as
`w.length` minus the trailing run of non-break characters (spec reading). -/
def specBreakPos (w : List Char) : Option Nat :=
  let j := (w.reverse.takeWhile (fun c => !(isBreakChar c))).length
  if j < w.length then some (w.length - j) else none

def splitTextSpecGo (length : Nat) : Nat → List Char → List (List Char)
  | 0, _ => []
  | fuel + 1, s =>
    if s = [] then []
    else if s.length ≤ length then [s]
    else
      match specBreakPos (s.take length) with
      | some p => s.take p :: splitTextSpecGo length fuel (s.drop p)
      | none => s.take length :: splitTextSpecGo length fuel (s.drop length)

def splitTextLastBreakSpec (text : String) (length : Nat) : List String :=
  if text.length ≤ length then [text]
  else (splitTextSpecGo length text.data.length text.data).map (fun l => ⟨l⟩)

/-! ### The boundary rule as literally claimed (newline preferred over space)

The claim says the boundary "prefers the last newline within the window,
else the last space".  Modelled from the claim's words (not from the code),
for the refutation below. -/

def lastIdxOfChar (d : Char) : List Char → Option Nat
  | [] => none
  | c :: cs =>
    match lastIdxOfChar d cs with
    | some i => some (i + 1)
    | none => if c = d then some 0 else none

def splitTextClaimGo (length : Nat) : Nat → List Char → List (List Char)
  | 0, _ => []
  | fuel + 1, s =>
    if s = [] then []
    else if s.length ≤ length then [s]
    else
      match lastIdxOfChar '\n' (s.take length) with
      | some i => s.take (i + 1) :: splitTextClaimGo length fuel (s.drop (i + 1))
      | none =>
        match lastIdxOfChar ' ' (s.take length) with
        | some i => s.take (i + 1) :: splitTextClaimGo length fuel (s.drop (i + 1))
        | none => s.take length :: splitTextClaimGo length fuel (s.drop length)

def splitTextNewlinePreferred (text : String) (length : Nat) : List String :=
  if text.length ≤ length then [text]
  else (splitTextClaimGo length text.data.length text.data).map (fun l => ⟨l⟩)

/-! ## `check_and_consume_limit` (src/main.py lines 552-600)

The user row, as read by `get_user`, is modelled by `UserRow`:
* `is_admin` — the `is_admin` column (`user_data.get('is_admin', False)`);
* `subscription_active` — whether `subscription_status == 'active'`;
* `subscription_expires` — `some t` when the column holds a
  `datetime.datetime` with UTC timestamp `t` (a naive value gets
  `tzinfo=UTC` attached by the code, so a single integer represents both),
  `none` when the column is `NULL` or not a datetime (the code only logs a
  warning in that case);
* `last_free_reset_date` — the raw `last_free_reset_date` column:
  a `datetime.date` (day ordinal), an ISO string that parses to a day
  ordinal, an unparsable string, or missing / any other type;
* `free_messages_today` — the daily counter.

`now` is the current UTC timestamp and `today` the current day ordinal.
The function's observable behaviour (return value plus the database writes
it performs via `deactivate_subscription` / `update_user_limits`) is
returned in `ConsumeOutcome`. -/

inductive ResetDate
  | missing
  | dateVal (d : Int)
  | strParsable (d : Int)
  | strUnparsable
deriving DecidableEq, Repr

structure UserRow where
  is_admin : Bool
  subscription_active : Bool
  subscription_expires : Option Int
  last_free_reset_date : ResetDate
  free_messages_today : Int
deriving DecidableEq, Repr

structure ConsumeOutcome where
  /-- The boolean returned to the caller. -/
  allowed : Bool
  /-- `deactivate_subscription` was invoked. -/
  deactivated : Bool
  /-- The first `update_user_limits(db, uid, 7, today)` call (counter reset). -/
  didReset : Bool
  /-- The decrementing `update_user_limits(db, uid, limit - 1)` call. -/
  consumedOne : Bool
  /-- Value of `free_messages_today` stored in the DB after the call. -/
  finalFree : Int
  /-- `last_free_reset_date` written by the reset, when it happened. -/
  finalResetDate : Option Int
deriving DecidableEq, Repr

/-- Lines 566-573: `is_sub` — subscription active with a datetime expiry
strictly in the future. -/
def is_sub (now : Int) (u : UserRow) : Bool :=
  u.subscription_active &&
    (match u.subscription_expires with
     | some t => decide (now < t)
     | none => false)

/-- Lines 574-577: the expired-subscription branch that calls
`deactivate_subscription`. -/
def sub_expired (now : Int) (u : UserRow) : Bool :=
  u.subscription_active &&
    (match u.subscription_expires with
     | some t => decide (t ≤ now)
     | none => false)

/-- Lines 583-591: `last_date` as parsed from the raw column (`None` stays
`none`; an unparsable string becomes `today - 1`). -/
def last_date (today : Int) : ResetDate → Option Int
  | ResetDate.missing => none
  | ResetDate.dateVal d => some d
  | ResetDate.strParsable d => some d
  | ResetDate.strUnparsable => some (today - 1)

/-- Line 593: `last_date is None or last_date < today`. -/
def needs_reset (today : Int) (rd : ResetDate) : Bool :=
  match last_date today rd with
  | none => true
  | some d => decide (d < today)

def check_and_consume_limit (now today : Int) (u : UserRow) : ConsumeOutcome :=
  -- line 559: admin bypass
  if u.is_admin then
    ⟨true, false, false, false, u.free_messages_today, none⟩
  -- lines 566-581: subscription bypass
  else if is_sub now u then
    ⟨true, false, false, false, u.free_messages_today, none⟩
  else
    -- lines 583-595: possible daily reset, then consume or refuse
    let needReset := needs_reset today u.last_free_reset_date
    let limit : Int := if needReset then 7 else u.free_messages_today
    if 0 < limit then
      ⟨true, sub_expired now u, needReset, true, limit - 1,
        if needReset then some today else none⟩
    else
      ⟨false, sub_expired now u, needReset, false, limit,
        if needReset then some today else none⟩

/-! ## `cancel_generation_callback` (src/main.py lines 1110-1161)

The shared `active_requests` dictionary is modelled as its characteristic
function `Nat → Bool`; the per-user `free_messages_today` column as
`free : Nat → Int`.  The Telegram calls at the end of the callback
(`edit_reply_markup`, `callback.answer`, the menu message) do not touch this
state and are omitted.  `dbOk` models `db and settings_local` being present
in `dp.workflow_data`; `restoreRaises` models the `UPDATE ... + 1` raising
(the exception is logged and swallowed, lines 1145-1146). -/

structure BotState where
  active : Nat → Bool
  free : Nat → Int

structure CancelEnv where
  dbOk : Bool
  restoreRaises : Bool

structure CancelResult where
  state : BotState
  /-- `task.cancel()` was invoked (a live task was found). -/
  cancelled : Bool
  /-- The `free_messages_today + 1` update committed. -/
  restored : Bool

def cancel_generation_callback (env : CancelEnv) (uid : Nat) (s : BotState) :
    CancelResult :=
  -- line 1121: task = active_requests.pop(user_id_to_cancel, None)
  if s.active uid then
    let s' : BotState := { s with active := fun v => if v = uid then false else s.active v }
    -- lines 1122-1146: task.cancel(); restore one unit
    if env.dbOk && !env.restoreRaises then
      { state := { s' with free := fun v => if v = uid then s'.free v + 1 else s'.free v }
        cancelled := true, restored := true }
    else
      { state := s', cancelled := true, restored := false }
  else
    { state := s, cancelled := false, restored := false }

/-! ## `markdown_to_telegram_html` (src/main.py lines 654-726)

Each `re.sub` pass is embedded as a left-to-right scanner over the
character list: at every position the matcher is tried; on a match the
replacement is emitted and scanning resumes after the consumed characters
(non-overlapping matches, replacements are not rescanned — exactly
`re.sub` / `str.replace` semantics); otherwise one character is kept and
the scanner advances.  All matchers consume at least one character, so a
fuel of `input.length + 1` always suffices.

Charset note: Python's `\w`, `\s` and `str.strip` are Unicode-aware; the
embedding uses their ASCII fragments (`Char.isAlphanum` is ASCII-only in
Lean), which is exact on all ASCII inputs. -/

def backquote : Char := Char.ofNat 96

def apostrophe : Char := Char.ofNat 39

/-- ASCII fragment of Python regex `\w`. -/
def isWordChar (c : Char) : Bool := c.isAlphanum || c = '_'

/-- ASCII fragment of Python regex `\s` / `str.strip` whitespace. -/
def isPySpace (c : Char) : Bool :=
  c = ' ' || c = '\t' || c = '\n' || c = '\r' || c = '\x0b' || c = '\x0c'

/-- `re.sub` scanner: `m s` returns `(replacement, consumed)` for a match
starting exactly at `s`, with `consumed ≥ 1`. -/
def scanRe (m : List Char → Option (List Char × Nat)) :
    Nat → List Char → List Char
  | 0, s => s
  | _ + 1, [] => []
  | fuel + 1, c :: cs =>
    match m (c :: cs) with
    | some (rep, consumed) => rep ++ scanRe m fuel (List.drop (consumed - 1) cs)
    | none => c :: scanRe m fuel cs

/-- Extraction scanner for the two code-span passes: like `scanRe` but the
matcher yields the capture group, the replacement is a placeholder built
from the running counter, and the (placeholder, body) pairs are collected
in scan order (Python dict insertion order). -/
def extractPass (m : List Char → Option (List Char × Nat))
    (mk : Nat → List Char) :
    Nat → Nat → List Char → List Char × List (List Char × List Char) × Nat
  | 0, cnt, s => (s, [], cnt)
  | _ + 1, cnt, [] => ([], [], cnt)
  | fuel + 1, cnt, c :: cs =>
    match m (c :: cs) with
    | some (body, consumed) =>
      let ph := mk cnt
      let r := extractPass m mk fuel (cnt + 1) (List.drop (consumed - 1) cs)
      (ph ++ r.1, (ph, body) :: r.2.1, r.2.2)
    | none =>
      let r := extractPass m mk fuel cnt cs
      (c :: r.1, r.2.1, r.2.2)

def mkCodeBlockPh (n : Nat) : List Char :=
  "@@CODEBLOCK_".data ++ (Nat.repr n).data ++ "@@".data

def mkInlineCodePh (n : Nat) : List Char :=
  "@@INLINECODE_".data ++ (Nat.repr n).data ++ "@@".data

/-- Lazy `[\s\S]*?` body of a fenced block: the shortest (possibly empty)
run of arbitrary characters followed by a closing triple backtick. -/
def fenceBody (d : Char) : Nat → List Char → Option (List Char)
  | 0, _ => none
  | fuel + 1, s =>
    if s.take 3 = [d, d, d] then some []
    else
      match s with
      | [] => none
      | c :: cs => (fenceBody d fuel cs).map (fun b => c :: b)

/-- Matcher for ```` ```(?:\w+)?\n([\s\S]*?)``` ```` (fenced code, optional
language tag, lazy body). `(?:\w+)?` is greedy but `\w` never matches
`\n`, so it matches iff the maximal word-character run after the fence is
followed by a newline. -/
def fencedMatch (s : List Char) : Option (List Char × Nat) :=
  if s.take 3 = [backquote, backquote, backquote] then
    let t := s.drop 3
    let lang := t.takeWhile isWordChar
    match t.drop lang.length with
    | c :: u =>
      if c = '\n' then
        match fenceBody backquote (u.length + 1) u with
        | some body => some (body, 3 + lang.length + 1 + body.length + 3)
        | none => none
      else none
    | [] => none
  else none

/-- Matcher for `` `([^`]+?)` `` (inline code). The lazy body and the
greedy body coincide because `[^`]` cannot match the closing backtick. -/
def inlineMatch (s : List Char) : Option (List Char × Nat) :=
  match s with
  | c :: rest =>
    if c = backquote then
      let body := rest.takeWhile (fun x => x != backquote)
      if body.length = 0 then none
      else if body.length < rest.length then some (body, body.length + 2)
      else none
    else none
  | [] => none

/-- Charwise `html.escape(text, quote=False)` (replaces `&`, `<`, `>`;
charwise application agrees with Python's sequential `str.replace`s). -/
def escCharNoQuote (c : Char) : List Char :=
  if c = '&' then "&amp;".data
  else if c = '<' then "&lt;".data
  else if c = '>' then "&gt;".data
  else [c]

def escapeNoQuote (s : List Char) : List Char :=
  s.foldr (fun c acc => escCharNoQuote c ++ acc) []

/-- Charwise `html.escape(url, quote=True)` (also `"` and `'`). -/
def escCharQuote (c : Char) : List Char :=
  if c = '&' then "&amp;".data
  else if c = '<' then "&lt;".data
  else if c = '>' then "&gt;".data
  else if c = '"' then "&quot;".data
  else if c = apostrophe then "&#x27;".data
  else [c]

def escapeQuote (s : List Char) : List Char :=
  s.foldr (fun c acc => escCharQuote c ++ acc) []

/-- Matcher for `\[([^\]]+)\]\(([^)]+)\)` with the replacement
`<a href="{escaped url}">{label}</a>` of `_replace_link`. -/
def linkMatch (s : List Char) : Option (List Char × Nat) :=
  match s with
  | '[' :: rest =>
    let label := rest.takeWhile (fun x => x != ']')
    if label.length = 0 then none
    else
      match rest.drop label.length with
      | ']' :: '(' :: rest2 =>
        let url := rest2.takeWhile (fun x => x != ')')
        if url.length = 0 then none
        else if url.length < rest2.length then
          some ("<a href=\"".data ++ escapeQuote url ++ "\">".data ++
                  label ++ "</a>".data,
                1 + label.length + 2 + url.length + 1)
        else none
      | _ => none
  | _ => none

/-- `\s*(.+)$` with greedy backtracking, tried right after the consumed
`#` run: skip `k` whitespace characters (longest skip first — `k` starts
at the maximal whitespace run and decreases), then `.+` takes the maximal
nonempty run of non-newline characters; `$` (end of line, MULTILINE) then
holds automatically.  Returns the capture `(group2, consumed)`. -/
def headingRest (t : List Char) : Nat → Option (List Char × Nat)
  | 0 =>
    match t with
    | [] => none
    | c :: _ =>
      if c = '\n' then none
      else
        let run := t.takeWhile (fun x => x != '\n')
        some (run, run.length)
  | k + 1 =>
    match t.drop (k + 1) with
    | [] => headingRest t k
    | c :: _ =>
      if c = '\n' then headingRest t k
      else
        let run := (t.drop (k + 1)).takeWhile (fun x => x != '\n')
        some (run, k + 1 + run.length)

/-- Backtracking over `#{1,6}` (greedy, longest first). -/
def headingTryJ (s : List Char) : Nat → Option (List Char × Nat)
  | 0 => none
  | j + 1 =>
    let t := s.drop (j + 1)
    match headingRest t (t.takeWhile isPySpace).length with
    | some (g2, consumed) => some (g2, j + 1 + consumed)
    | none => headingTryJ s j

/-- Matcher for `^(#{1,6})\s*(.+)$` at a line-start position. -/
def headingMatch (s : List Char) : Option (List Char × Nat) :=
  let r := (s.takeWhile (fun c => c = '#')).length
  if r = 0 then none else headingTryJ s (min r 6)

/-- MULTILINE scanner for the heading pass; `lineStart` tracks whether the
current position is at the start of a line of the original text (`^`).
A match's last consumed character is never a newline, so scanning resumes
with `lineStart := false`. -/
def headingPass : Nat → Bool → List Char → List Char
  | 0, _, s => s
  | _ + 1, _, [] => []
  | fuel + 1, lineStart, c :: cs =>
    if lineStart then
      match headingMatch (c :: cs) with
      | some (g2, consumed) =>
        "<b>".data ++ g2 ++ "</b>\n".data ++
          headingPass fuel false (List.drop (consumed - 1) cs)
      | none => c :: headingPass fuel (c == '\n') cs
    else c :: headingPass fuel (c == '\n') cs

/-- Matcher for `\*\*([^\*]+)\*\*` and `__([^_]+)__`: double delimiter,
greedy nonempty body free of the delimiter, double delimiter. -/
def pairMatch (d : Char) (openTag closeTag : List Char) (s : List Char) :
    Option (List Char × Nat) :=
  if s.take 2 = [d, d] then
    let rest := s.drop 2
    let body := rest.takeWhile (fun x => x != d)
    if body.length = 0 then none
    else if (rest.drop body.length).take 2 = [d, d] then
      some (openTag ++ body ++ closeTag, body.length + 4)
    else none
  else none

/-- Matcher for `(?<!d)d([^d]+)d(?!d)` (italic, with negative lookbehind
and lookahead); `prev` is the original character before the position. -/
def italicMatch (d : Char) (openTag closeTag : List Char) (prev : Option Char)
    (s : List Char) : Option (List Char × Nat) :=
  match s with
  | c :: rest =>
    if c = d && prev != some d then
      let body := rest.takeWhile (fun x => x != d)
      if body.length = 0 then none
      else if body.length < rest.length then
        -- the closing delimiter exists; `(?!d)` checks the char after it
        match rest.drop (body.length + 1) with
        | y :: _ => if y = d then none else some (openTag ++ body ++ closeTag, body.length + 2)
        | [] => some (openTag ++ body ++ closeTag, body.length + 2)
      else none
    else none
  | [] => none

/-- Scanner threading the previous original character (for lookbehind).
After a match the last consumed character is the closing delimiter `d`. -/
def scanItalic (d : Char) (openTag closeTag : List Char) :
    Nat → Option Char → List Char → List Char
  | 0, _, s => s
  | _ + 1, _, [] => []
  | fuel + 1, prev, c :: cs =>
    match italicMatch d openTag closeTag prev (c :: cs) with
    | some (rep, consumed) =>
      rep ++ scanItalic d openTag closeTag fuel (some d) (List.drop (consumed - 1) cs)
    | none => c :: scanItalic d openTag closeTag fuel (some c) cs

/-- Lazy `(.+?)` body followed by a double delimiter: the shortest
nonempty run of non-newline characters with `[d, d]` right after it. -/
def lazyBody (d : Char) : Nat → List Char → Option (List Char)
  | 0, _ => none
  | _ + 1, [] => none
  | fuel + 1, c :: cs =>
    if c = '\n' then none
    else if cs.take 2 = [d, d] then some [c]
    else (lazyBody d fuel cs).map (fun b => c :: b)

/-- Matcher for `~~(.+?)~~` with replacement `" \1⁠ "` (space, body,
U+2060 word joiner, space — the exact bytes of line 705). -/
def strikeMatch (s : List Char) : Option (List Char × Nat) :=
  if s.take 2 = ['~', '~'] then
    match lazyBody '~' (s.length + 1) (s.drop 2) with
    | some body => some ([' '] ++ body ++ [Char.ofNat 8288, ' '], body.length + 4)
    | none => none
  else none

/-- Matcher for `\|\|(.+?)\|\|` → `<tg-spoiler>\1</tg-spoiler>`. -/
def spoilerMatch (s : List Char) : Option (List Char × Nat) :=
  if s.take 2 = ['|', '|'] then
    match lazyBody '|' (s.length + 1) (s.drop 2) with
    | some body =>
      some ("<tg-spoiler>".data ++ body ++ "</tg-spoiler>".data, body.length + 4)
    | none => none
  else none

/-- Python `str.replace` (all non-overlapping occurrences, left to right,
replacements not rescanned); `pat` is nonempty at every use site. -/
def replaceAll (pat rep : List Char) : Nat → List Char → List Char
  | 0, s => s
  | _ + 1, [] => []
  | fuel + 1, c :: cs =>
    if (c :: cs).take pat.length = pat then
      rep ++ replaceAll pat rep fuel (List.drop (pat.length - 1) cs)
    else c :: replaceAll pat rep fuel cs

def codeBlockTag : List Char := "@@CODEBLOCK_".data

/-- Restoration of one placeholder (lines 710-716): the body is
HTML-escaped at restoration time; `<pre>` for fenced blocks (placeholder
starts with `@@CODEBLOCK_`), `<code>` for inline spans. -/
def renderPlaceholder (ph body : List Char) : List Char :=
  let escaped := escapeNoQuote body
  if ph.take codeBlockTag.length = codeBlockTag then
    "<pre>".data ++ escaped ++ "</pre>".data
  else
    "<code>".data ++ escaped ++ "</code>".data

/-- `for placeholder, code in code_blocks.items(): text = text.replace(...)`
— sequential replacement in dict insertion order. -/
def restorePlaceholders (tbl : List (List Char × List Char))
    (s : List Char) : List Char :=
  tbl.foldl
    (fun acc pb => replaceAll pb.1 (renderPlaceholder pb.1 pb.2) (acc.length + 1) acc)
    s

/-- `re.sub(r'\n{3,}', '\n\n', text)`. -/
def collapseNewlines : Nat → List Char → List Char
  | 0, s => s
  | _ + 1, [] => []
  | fuel + 1, c :: cs =>
    if c = '\n' then
      let run := 1 + (cs.takeWhile (fun x => x = '\n')).length
      (if 3 ≤ run then ['\n', '\n'] else List.replicate run '\n') ++
        collapseNewlines fuel (cs.drop (run - 1))
    else c :: collapseNewlines fuel cs

/-- `str.strip()` (ASCII whitespace fragment). -/
def pyStrip (s : List Char) : List Char :=
  ((s.dropWhile isPySpace).reverse.dropWhile isPySpace).reverse

/-- The full transcoder, passes in source order (lines 654-726). -/
def markdown_to_telegram_html (text : String) : String :=
  if text.data = [] then ""
  else
    let s0 := text.data
    -- lines 678-681: extract fenced blocks, then inline code
    let e1 := extractPass fencedMatch mkCodeBlockPh (s0.length + 1) 0 s0
    let e2 := extractPass inlineMatch mkInlineCodePh (e1.1.length + 1) e1.2.2 e1.1
    let tbl := e1.2.1 ++ e2.2.1
    -- line 684: escape
    let t3 := escapeNoQuote e2.1
    -- line 692: links
    let t4 := scanRe linkMatch (t3.length + 1) t3
    -- line 695: headings
    let t5 := headingPass (t4.length + 1) true t4
    -- lines 698-707: bold, underline, italic, strikethrough, spoilers
    let t6 := scanRe (pairMatch '*' "<b>".data "</b>".data) (t5.length + 1) t5
    let t7 := scanRe (pairMatch '_' "<u>".data "</u>".data) (t6.length + 1) t6
    let t8 := scanItalic '*' "<i>".data "</i>".data (t7.length + 1) none t7
    let t9 := scanItalic '_' "<i>".data "</i>".data (t8.length + 1) none t8
    let t10 := scanRe strikeMatch (t9.length + 1) t9
    let t11 := scanRe spoilerMatch (t10.length + 1) t10
    -- lines 710-716: restore placeholders
    let t12 := restorePlaceholders tbl t11
    -- lines 719-721: collapse blank lines, strip
    let t13 := collapseNewlines (t12.length + 1) t12
    let t14 := pyStrip t13
    -- line 724: strip leftover markup markers
    let t15 := t14.filter (fun c => !(c = '*' || c = '_' || c = '~'))
    ⟨t15⟩

/-- Substring containment (used to state the C2 counterexample). -/
def containsSub (s pat : List Char) : Bool :=
  match s with
  | [] => pat = []
  | _ :: tail => s.take pat.length = pat || containsSub tail pat

/-- Spec-side reset condition: the stored reset date is "missing,
unparsable, or earlier than today". -/
def resetExpected (today : Int) : ResetDate → Bool
  | ResetDate.missing => true
  | ResetDate.strUnparsable => true
  | ResetDate.dateVal d => decide (d < today)
  | ResetDate.strParsable d => decide (d < today)

/-- The admin row used in the C4 counterexample scenario (user 7):
`check_and_consume_limit` admits an administrator without consuming. -/
def adminRowEx : UserRow :=
  { is_admin := true, subscription_active := false, subscription_expires := none
    last_free_reset_date := ResetDate.dateVal 0, free_messages_today := 5 }

/-! ## The streaming text-message handler (src/main.py lines 818-1107)

The handler is deterministic given the provider's fragment list and the
outcomes of the external calls.  The latter are supplied by oracle records:
one `MsgOracle` per loop iteration (indexed by iteration number), plus
flags for the calls outside the loop.  Wall-clock throttling
(`now - last_edit_time > edit_interval`, line 984) is abstracted into the
per-iteration `throttleOpen` bit, so `last_edit_time` itself is not part of
the modelled state.  The `pending_photo_prompts` branch at lines 820-833
(photo-generation prompts, a different feature) is outside the modelled
scope; the model starts at line 834.

Output units (Telegram messages) are numbered by `message_count`; the ghost
field `segments` records the raw text of every segment rotated out, and the
event trace records every `edit_message_text` call (with whether it used
transcoded HTML), every cancel-affordance removal attempt and every created
placeholder. -/

inductive EditRes
  | ok
  | retryAfter   -- TelegramRetryAfter (a TelegramAPIError subclass)
  | errLost      -- TelegramAPIError whose text says the message is gone
  | errOther     -- any other TelegramAPIError
deriving DecidableEq, Repr

structure MsgOracle where
  /-- CancelledError surfaces at this iteration's fragment await. -/
  cancelledHere : Bool
  /-- the transcoder raises during the length check (lines 925-933). -/
  fmtCheckRaises : Bool
  /-- the transcoder raises during segment finalization (line 939; the
  surrounding `try` catches only `TelegramAPIError`, so this propagates). -/
  finFmtRaises : Bool
  /-- `edit_message_text` finalizing the rotated segment (line 941). -/
  finEdit : EditRes
  /-- the raw fallback edit (line 955). -/
  finRawEdit : EditRes
  /-- `edit_message_reply_markup` removing the cancel affordance (line 968). -/
  removeMarkup : EditRes
  /-- the new placeholder `message.answer` (line 970). -/
  newPlaceholder : EditRes
  /-- `now - last_edit_time > edit_interval` (line 984). -/
  throttleOpen : Bool
  /-- the transcoder raises mid-stream (line 986; caught by the generic
  `except Exception` at line 1012). -/
  midFmtRaises : Bool
  /-- the mid-stream `edit_message_text` (line 989). -/
  midEdit : EditRes
deriving DecidableEq, Repr

structure StreamState where
  fullRaw : String          -- `full_raw_response`
  curText : String          -- `current_message_text`
  curMsgId : Option Nat     -- `current_message_id`
  msgCount : Nat            -- `message_count`
  formattingFailed : Bool   -- `formatting_failed`
  nextMsgId : Nat           -- supply of fresh message ids
  segments : List String    -- ghost: raw text of each rotated-out segment
deriving DecidableEq, Repr

inductive Ev
  | editSent (usedHtml : Bool) (payload : String)
  | removeAttempt (unit : Nat)
  | unitCreated (unit : Nat)
deriving DecidableEq, Repr

inductive StepOut
  | cont (s : StreamState)
  | broke (s : StreamState)        -- `break` out of the async-for
  | crashed (s : StreamState)      -- uncaught exception → outer `except`
  | cancelledAt (s : StreamState)  -- CancelledError → only `finally` runs
deriving DecidableEq, Repr

def stepState : StepOut → StreamState
  | StepOut.cont s => s
  | StepOut.broke s => s
  | StepOut.crashed s => s
  | StepOut.cancelledAt s => s

/-- Lines 938-961: finalize the segment being rotated out.  `none` means
the transcoder raised (only `TelegramAPIError` is caught here — crash).
The edit is attempted only when the finalized text is nonempty
(`if final_part_html:`).  On a failed edit the handler switches to raw
once and retries a raw edit; a second failure (or a failure while already
raw) loses the message (`current_message_id = None`). -/
def finalizeSegment (o : MsgOracle) (s : StreamState) :
    Option (StreamState × List Ev) :=
  if !s.formattingFailed && o.finFmtRaises then none
  else
    let finalHtml := if s.formattingFailed then s.curText
                     else markdown_to_telegram_html s.curText
    if finalHtml = "" then some (s, [])
    else
      let ev := Ev.editSent (!s.formattingFailed) finalHtml
      if o.finEdit = EditRes.ok then some (s, [ev])
      else if !s.formattingFailed then
        let s' := { s with formattingFailed := true }
        if s'.curText = "" then some (s', [ev])
        else
          let ev2 := Ev.editSent false s'.curText
          if o.finRawEdit = EditRes.ok then some (s', [ev, ev2])
          else some ({ s' with curMsgId := none }, [ev, ev2])
      else some ({ s with curMsgId := none }, [ev])

/-- Lines 963-977: rotate to a new output unit.  `current_message_text`
restarts from the overflowing chunk and `message_count` is incremented
BEFORE the `try`; the cancel-affordance removal and the new placeholder
share one `try`, so a failure of either (including the removal call made
with a lost `current_message_id = None`) breaks the stream without
creating the next unit. -/
def rotateSegment (o : MsgOracle) (chunk : String) (s : StreamState) :
    StepOut × List Ev :=
  let s4 := { s with
    curText := chunk
    msgCount := s.msgCount + 1
    segments := s.segments ++ [s.curText] }
  let evR := Ev.removeAttempt s.msgCount
  if s.curMsgId ≠ none ∧ o.removeMarkup = EditRes.ok then
    if o.newPlaceholder = EditRes.ok then
      (StepOut.cont { s4 with
          curMsgId := some s4.nextMsgId
          nextMsgId := s4.nextMsgId + 1 },
       [evR, Ev.unitCreated s4.msgCount])
    else (StepOut.broke { s4 with curMsgId := none }, [evR])
  else (StepOut.broke { s4 with curMsgId := none }, [evR])

/-- Lines 979-1013: the within-limit path — append the chunk and, when the
throttle interval has elapsed, edit the current message.  A transcoder
raise is swallowed by the generic `except Exception`; a RetryAfter is
slept through; a "message is gone" error drops `current_message_id`; any
other edit error degrades formatting once. -/
def midStreamEdit (o : MsgOracle) (s : StreamState) : StepOut × List Ev :=
  if o.throttleOpen then
    if !s.formattingFailed && o.midFmtRaises then (StepOut.cont s, [])
    else
      let htmlSend := (if s.formattingFailed then s.curText
                       else markdown_to_telegram_html s.curText) ++ "..."
      let ev := Ev.editSent (!s.formattingFailed) htmlSend
      match o.midEdit with
      | EditRes.ok => (StepOut.cont s, [ev])
      | EditRes.retryAfter => (StepOut.cont s, [ev])
      | EditRes.errLost => (StepOut.cont { s with curMsgId := none }, [ev])
      | EditRes.errOther =>
        (StepOut.cont (if s.formattingFailed then s
                       else { s with formattingFailed := true }), [ev])
  else (StepOut.cont s, [])

/-- Lines 920-933: append the chunk to `full_raw_response` and (when the
transcoder raised during the length check) set `formatting_failed`. -/
def appendChunk (fmtRaises : Bool) (chunk : String) (s : StreamState) :
    StreamState :=
  let s1 := { s with fullRaw := s.fullRaw ++ chunk }
  if fmtRaises then { s1 with formattingFailed := true } else s1

/-- Line 927 (or the raw fallback of line 931): the text whose rendered
length is compared against the Telegram ceiling. -/
def overflowCheck (fmtRaises : Bool) (tentative : String) : String :=
  (if fmtRaises then tentative else markdown_to_telegram_html tentative) ++ "..."

/-- Lines 936-977: the overflow path — finalize, then rotate. -/
def overflowStep (o : MsgOracle) (chunk : String) (s2 : StreamState) :
    StepOut × List Ev :=
  match finalizeSegment o s2 with
  | none => (StepOut.crashed s2, [])
  | some (s3, evs1) =>
    let r := rotateSegment o chunk s3
    (r.1, evs1 ++ r.2)

/-- One iteration of `async for chunk in stream_o4mini_response(...)`
(lines 915-1013). -/
def stepChunk (o : MsgOracle) (chunk : String) (s : StreamState) :
    StepOut × List Ev :=
  -- cancellation is observed at the fragment await
  if o.cancelledHere then (StepOut.cancelledAt s, [])
  -- line 916: `if not current_message_id: break` (the chunk is dropped)
  else if s.curMsgId = none then (StepOut.broke s, [])
  else if TELEGRAM_MAX_LENGTH <
      (overflowCheck o.fmtCheckRaises (s.curText ++ chunk)).length then
    overflowStep o chunk (appendChunk o.fmtCheckRaises chunk s)
  else
    midStreamEdit o
      { appendChunk o.fmtCheckRaises chunk s with curText := s.curText ++ chunk }

inductive LoopExit
  | finished | loopBroke | loopCrashed | loopCancelled
deriving DecidableEq, Repr

def runLoop (os : Nat → MsgOracle) :
    List String → Nat → StreamState → StreamState × List Ev × LoopExit
  | [], _, s => (s, [], LoopExit.finished)
  | chunk :: rest, i, s =>
    match stepChunk (os i) chunk s with
    | (StepOut.cont s', evs) =>
      let r := runLoop os rest (i + 1) s'
      (r.1, evs ++ r.2.1, r.2.2)
    | (StepOut.broke s', evs) => (s', evs, LoopExit.loopBroke)
    | (StepOut.crashed s', evs) => (s', evs, LoopExit.loopCrashed)
    | (StepOut.cancelledAt s', evs) => (s', evs, LoopExit.loopCancelled)

structure PostOracle where
  /-- the transcoder raises at line 1020 (only TelegramAPIError is caught
  by this `try` — the raise propagates to the outer handler). -/
  lastFmtRaises : Bool
  /-- final `edit_message_text` (line 1022). -/
  lastEdit : EditRes
  /-- the 🫡 menu message (line 1030; inside the same `try`). -/
  menuSend : EditRes
  /-- `add_message_to_db` for the assistant turn raises (line 1083; caught). -/
  persistRaises : Bool
deriving DecidableEq, Repr

structure PostResult where
  st : StreamState
  evs : List Ev
  postCrashed : Bool
  persistedAssistant : Bool
deriving DecidableEq, Repr

/-- Lines 1016-1087: finalize the last message (or the no-answer notice)
and persist the full raw answer.  The raw-fallback chain (lines
1038-1060) absorbs its own failures; the no-answer notice and the
error-path edits carry fixed text, not session text, and are not traced. -/
def postLoop (o : PostOracle) (s : StreamState) : PostResult :=
  if s.curMsgId ≠ none ∧ s.curText ≠ "" then
    if !s.formattingFailed && o.lastFmtRaises then
      -- the exception skips the persist at line 1081
      { st := s, evs := [], postCrashed := true, persistedAssistant := false }
    else
      let finalHtml := if s.formattingFailed then s.curText
                       else markdown_to_telegram_html s.curText
      let ev := Ev.editSent (!s.formattingFailed) finalHtml
      let evs := if o.lastEdit = EditRes.ok ∧ o.menuSend = EditRes.ok then [ev]
                 else [ev, Ev.editSent false s.curText]
      { st := s, evs := evs, postCrashed := false,
        persistedAssistant := s.fullRaw ≠ "" ∧ o.persistRaises = false }
  else
    { st := s, evs := [], postCrashed := false,
      persistedAssistant := s.fullRaw ≠ "" ∧ o.persistRaises = false }

structure HandlerEnv where
  /-- `db` and settings present in `dp.workflow_data` (line 841). -/
  dbOk : Bool
  /-- `get_or_create_user` returned data (line 854). -/
  userOk : Bool
  /-- `bot.send_chat_action` raises (line 873 — OUTSIDE the `try`, so the
  `finally` at line 1100 never runs and the registry slot leaks). -/
  chatActionRaises : Bool
  /-- `add_message_to_db` for the user turn raises (line 878; inside the
  `try` → outer `except`, `finally`). -/
  persistUserRaises : Bool
  /-- `get_last_messages` raises (line 882). -/
  historyRaises : Bool
  /-- the initial ⏳ placeholder was sent (line 907). -/
  placeholderOk : Bool
  os : Nat → MsgOracle
  post : PostOracle

inductive HandlerExit
  | earlyErr          -- lines 841-857 (before admission; no registration)
  | rejectedBusy      -- lines 862-868
  | leakedBeforeTry   -- line 873 raised after registration, before the try
  | hcrashed          -- outer `except` (line 1089), then `finally`
  | quotaRejected     -- lines 887-894 (inside the try; `finally` runs)
  | placeholderFailed -- lines 911-913
  | completed         -- fragment stream exhausted, post-processing done
  | brokeEarly        -- the loop broke out
  | cancelledExit     -- CancelledError propagated; only `finally` ran
deriving DecidableEq, Repr

structure HandlerResult where
  exit : HandlerExit
  active : Nat → Bool
  st : StreamState
  trace : List Ev
  persistedUserTurn : Bool
  consume : Option ConsumeOutcome
  registered : Bool
  persistedAssistant : Bool
  consumedAllFragments : Bool

/-- The stream state right after the initial placeholder (message 1). -/
def initialStream : StreamState :=
  { fullRaw := "", curText := "", curMsgId := some 1, msgCount := 1,
    formattingFailed := false, nextMsgId := 2, segments := [] }

/-- A dummy state for exits before any placeholder exists. -/
def emptyStream : StreamState :=
  { fullRaw := "", curText := "", curMsgId := none, msgCount := 0,
    formattingFailed := false, nextMsgId := 1, segments := [] }

/-- Lines 915-1087: the streaming loop followed by the post-loop
processing.  Returns (final stream state, trace, exit kind,
assistant-turn persisted, all fragments consumed). -/
def mainFlow (env : HandlerEnv) (chunks : List String) :
    StreamState × List Ev × HandlerExit × Bool × Bool :=
  let r := runLoop env.os chunks 0 initialStream
  let baseTrace := Ev.unitCreated 1 :: r.2.1
  match r.2.2 with
  | LoopExit.loopCrashed =>
    (r.1, baseTrace, HandlerExit.hcrashed, false, false)
  | LoopExit.loopCancelled =>
    (r.1, baseTrace, HandlerExit.cancelledExit, false, false)
  | LoopExit.finished =>
    let p := postLoop env.post r.1
    (p.st, baseTrace ++ p.evs,
     if p.postCrashed then HandlerExit.hcrashed else HandlerExit.completed,
     p.persistedAssistant, true)
  | LoopExit.loopBroke =>
    let p := postLoop env.post r.1
    (p.st, baseTrace ++ p.evs,
     if p.postCrashed then HandlerExit.hcrashed else HandlerExit.brokeEarly,
     p.persistedAssistant, false)

/-- `message_handler` (lines 834-1107), modelled end to end. -/
def message_handler (env : HandlerEnv) (now today : Int) (u : UserRow)
    (uid : Nat) (active : Nat → Bool) (chunks : List String) : HandlerResult :=
  if !env.dbOk || !env.userOk then
    { exit := HandlerExit.earlyErr, active := active, st := emptyStream,
      trace := [], persistedUserTurn := false, consume := none,
      registered := false, persistedAssistant := false,
      consumedAllFragments := false }
  else if active uid then
    -- lines 862-868: admission rejection — nothing is changed
    { exit := HandlerExit.rejectedBusy, active := active, st := emptyStream,
      trace := [], persistedUserTurn := false, consume := none,
      registered := false, persistedAssistant := false,
      consumedAllFragments := false }
  else
    -- line 871: active_requests[user_id] = current task
    let act1 : Nat → Bool := fun v => if v = uid then true else active v
    -- the `finally` at lines 1100-1107 pops the slot
    let popped : Nat → Bool := fun v => if v = uid then false else act1 v
    if env.chatActionRaises then
      -- line 873 raised outside the try: no finally, slot leaks
      { exit := HandlerExit.leakedBeforeTry, active := act1, st := emptyStream,
        trace := [], persistedUserTurn := false, consume := none,
        registered := true, persistedAssistant := false,
        consumedAllFragments := false }
    else if env.persistUserRaises then
      { exit := HandlerExit.hcrashed, active := popped, st := emptyStream,
        trace := [], persistedUserTurn := false, consume := none,
        registered := true, persistedAssistant := false,
        consumedAllFragments := false }
    else if env.historyRaises then
      { exit := HandlerExit.hcrashed, active := popped, st := emptyStream,
        trace := [], persistedUserTurn := true, consume := none,
        registered := true, persistedAssistant := false,
        consumedAllFragments := false }
    else
      -- lines 885-894: quota check (the user turn is already persisted)
      let consume := check_and_consume_limit now today u
      if !consume.allowed then
        { exit := HandlerExit.quotaRejected, active := popped, st := emptyStream,
          trace := [], persistedUserTurn := true, consume := some consume,
          registered := true, persistedAssistant := false,
          consumedAllFragments := false }
      else if !env.placeholderOk then
        { exit := HandlerExit.placeholderFailed, active := popped,
          st := emptyStream, trace := [], persistedUserTurn := true,
          consume := some consume, registered := true,
          persistedAssistant := false, consumedAllFragments := false }
      else
        let m := mainFlow env chunks
        { exit := m.2.2.1, active := popped, st := m.1, trace := m.2.1,
          persistedUserTurn := true, consume := some consume,
          registered := true, persistedAssistant := m.2.2.2.1,
          consumedAllFragments := m.2.2.2.2 }

/-! ## `photo_handler` (src/main.py lines 1288-1423)

Unlike `message_handler`, the photo handler calls
`check_and_consume_limit` BEFORE the busy check (line 1307 vs 1321), and
its busy check sits INSIDE the `try` whose `finally` (line 1422) pops
`active_requests[user_id]` — so a rejected second photo both consumes
quota and removes the in-flight user's registry entry. -/

structure PhotoOracle where
  throttleOpen : Bool
  /-- the transcoder raises at line 1373 (only Telegram errors are caught
  by the inner `try` — the raise propagates to the outer handler). -/
  fmtRaises : Bool
  /-- `edit_message_text` at line 1374. -/
  edit : EditRes
deriving DecidableEq, Repr

structure PhotoEnv where
  dbOk : Bool
  userOk : Bool
  /-- `get_file` / `download_file` (lines 1329-1331) raise. -/
  downloadRaises : Bool
  /-- `get_last_messages` (line 1340) raises. -/
  historyRaises : Bool
  /-- `add_message_to_db` for the user turn (line 1354) raises. -/
  persistUserRaises : Bool
  /-- the ⏳ placeholder (line 1360) was sent. -/
  placeholderOk : Bool
  os : Nat → PhotoOracle
  /-- the transcoder raises at line 1394 (finalization). -/
  finalFmtRaises : Bool
  /-- `add_message_to_db` for the assistant turn (line 1415) raises. -/
  persistAssistantRaises : Bool

inductive PhotoExit
  | pEarlyErr       -- lines 1295-1305 (before the try: no finally)
  | pQuotaRejected  -- lines 1308-1317 (before the try: no finally)
  | pRejectedBusy   -- lines 1321-1326 (inside the try: finally pops!)
  | pCrashed        -- except at 1417, finally
  | pCompleted
deriving DecidableEq, Repr

structure PhotoResult where
  exit : PhotoExit
  active : Nat → Bool
  consume : Option ConsumeOutcome
  persistedUserTurn : Bool
  registered : Bool
  persistedAssistant : Bool
  fullResponse : String

/-- Lines 1365-1390: the photo streaming loop.  Returns the accumulated
text, whether the loop broke (message gone) and whether it crashed (the
transcoder raised). -/
def photoLoop (os : Nat → PhotoOracle) :
    List String → Nat → String → String × Bool × Bool
  | [], _, acc => (acc, false, false)
  | ch :: rest, i, acc =>
    let acc' := acc ++ ch
    let o := os i
    if o.throttleOpen then
      if o.fmtRaises then (acc', false, true)
      else
        match o.edit with
        | EditRes.errLost => (acc', true, false)   -- line 1390: break
        | _ => photoLoop os rest (i + 1) acc'      -- all other outcomes continue
    else photoLoop os rest (i + 1) acc'

def photo_handler (env : PhotoEnv) (now today : Int) (u : UserRow)
    (uid : Nat) (active : Nat → Bool) (chunks : List String) : PhotoResult :=
  if !env.dbOk || !env.userOk then
    { exit := PhotoExit.pEarlyErr, active := active, consume := none,
      persistedUserTurn := false, registered := false,
      persistedAssistant := false, fullResponse := "" }
  else
    -- line 1307: quota consumption happens BEFORE the busy check
    let consume := check_and_consume_limit now today u
    if !consume.allowed then
      { exit := PhotoExit.pQuotaRejected, active := active,
        consume := some consume, persistedUserTurn := false,
        registered := false, persistedAssistant := false, fullResponse := "" }
    else
      -- the try at line 1320 begins: every exit from here runs the finally
      let popped : Nat → Bool := fun v => if v = uid then false else active v
      if active uid then
        -- lines 1321-1326: busy rejection … and then the finally at line
        -- 1422 pops the FIRST generation's registry entry
        { exit := PhotoExit.pRejectedBusy, active := popped,
          consume := some consume, persistedUserTurn := false,
          registered := false, persistedAssistant := false, fullResponse := "" }
      else if env.downloadRaises || env.historyRaises then
        { exit := PhotoExit.pCrashed, active := popped,
          consume := some consume, persistedUserTurn := false,
          registered := false, persistedAssistant := false, fullResponse := "" }
      else if env.persistUserRaises then
        { exit := PhotoExit.pCrashed, active := popped,
          consume := some consume, persistedUserTurn := false,
          registered := false, persistedAssistant := false, fullResponse := "" }
      else
        -- line 1357: register; from here the finally pops the fresh entry
        if !env.placeholderOk then
          { exit := PhotoExit.pCrashed, active := popped,
            consume := some consume, persistedUserTurn := true,
            registered := true, persistedAssistant := false,
            fullResponse := "" }
        else
          let r := photoLoop env.os chunks 0 ""
          if r.2.2 then
            { exit := PhotoExit.pCrashed, active := popped,
              consume := some consume, persistedUserTurn := true,
              registered := true, persistedAssistant := false,
              fullResponse := r.1 }
          else if env.finalFmtRaises then
            { exit := PhotoExit.pCrashed, active := popped,
              consume := some consume, persistedUserTurn := true,
              registered := true, persistedAssistant := false,
              fullResponse := r.1 }
          else if r.1 ≠ "" ∧ env.persistAssistantRaises then
            { exit := PhotoExit.pCrashed, active := popped,
              consume := some consume, persistedUserTurn := true,
              registered := true, persistedAssistant := false,
              fullResponse := r.1 }
          else
            { exit := PhotoExit.pCompleted, active := popped,
              consume := some consume, persistedUserTurn := true,
              registered := true, persistedAssistant := r.1 ≠ "",
              fullResponse := r.1 }

/-! ## Trace predicates for C7 and C9 -/

/-- Whether an event renders with transcoded HTML. -/
def evHtml : Ev → Bool
  | Ev.editSent h _ => h
  | _ => false

/-- Automaton for the removal-before-creation ordering: the state is
(last created unit, has its cancel-affordance removal been attempted);
creating unit `n+1` is legal only right after unit `n`'s removal was
attempted. -/
def croStep : Option (Nat × Bool) → Ev → Option (Nat × Bool)
  | none, _ => none
  | some (n, r), Ev.removeAttempt m => some (n, r || (m == n))
  | some (n, r), Ev.unitCreated m =>
    if m == n + 1 && r then some (n + 1, false) else none
  | some st, Ev.editSent _ _ => some st

/-- The whole-trace ordering check: unit 1 may be created out of nothing,
every later unit only after its predecessor's removal attempt. -/
def removalBeforeCreation (tr : List Ev) : Bool :=
  (tr.foldl croStep (some (0, true))).isSome

/-! ## Concrete scenarios used by witnesses and counterexamples -/

/-- All external calls succeed, throttle open, no exceptions. -/
def okOracle : MsgOracle :=
  { cancelledHere := false, fmtCheckRaises := false, finFmtRaises := false
    finEdit := EditRes.ok, finRawEdit := EditRes.ok, removeMarkup := EditRes.ok
    newPlaceholder := EditRes.ok, throttleOpen := true, midFmtRaises := false
    midEdit := EditRes.ok }

def okPost : PostOracle :=
  { lastFmtRaises := false, lastEdit := EditRes.ok, menuSend := EditRes.ok
    persistRaises := false }

def envOk : HandlerEnv :=
  { dbOk := true, userOk := true, chatActionRaises := false
    persistUserRaises := false, historyRaises := false, placeholderOk := true
    os := fun _ => okOracle, post := okPost }

/-- `send_chat_action` raises: the failing input for the registry leak. -/
def envLeak : HandlerEnv :=
  { envOk with chatActionRaises := true }

/-- A chunk long enough to overflow the 4000-character ceiling. -/
def bigA : String := String.mk (List.replicate 4001 'a')

/-- The transcoder raises during the length check (so the raw length is
used) and the cancel-affordance removal fails. -/
def rotFailOracle : MsgOracle :=
  { okOracle with fmtCheckRaises := true, removeMarkup := EditRes.errOther }

def envRotFail : HandlerEnv :=
  { envOk with os := fun _ => rotFailOracle }

/-- Oracle with a failing removal, for the C9 witness. -/
def removeFailOracle : MsgOracle :=
  { okOracle with removeMarkup := EditRes.errOther }

def photoOkOracle : PhotoOracle :=
  { throttleOpen := true, fmtRaises := false, edit := EditRes.ok }

def photoEnvOk : PhotoEnv :=
  { dbOk := true, userOk := true, downloadRaises := false
    historyRaises := false, persistUserRaises := false, placeholderOk := true
    os := fun _ => photoOkOracle, finalFmtRaises := false
    persistAssistantRaises := false }

/-- A non-admin, non-subscribed user with 5 free messages and today's
reset date (day ordinal 50). -/
def nonAdminRow : UserRow :=
  { is_admin := false, subscription_active := false, subscription_expires := none
    last_free_reset_date := ResetDate.dateVal 50, free_messages_today := 5 }

/-- A mid-generation state whose formatting has already degraded. -/
def degradedStream : StreamState :=
  { initialStream with formattingFailed := true }

/-- The state in which the C9 counterexample run breaks: the oversized
first chunk was absorbed, the rotation failed, the message id was lost. -/
def brokeStateEx : StreamState :=
  { fullRaw := "" ++ bigA, curText := bigA, curMsgId := none, msgCount := 2,
    formattingFailed := true, nextMsgId := 2, segments := [""] }

/-! # Theorems -/

/-! ### Basic string lemmas -/

theorem string_append_data (a b : String) : (a ++ b).data = a.data ++ b.data := rfl

theorem string_mk_append (a b : List Char) :
    (String.mk a) ++ (String.mk b) = String.mk (a ++ b) := rfl

theorem concatStrings_map_mk (l : List (List Char)) :
    concatStrings (l.map (fun d => String.mk d)) = String.mk l.flatten := by
  induction l with
  | nil => rfl
  | cons a t ih => simp [concatStrings, ih, string_mk_append]

/-! ### Facts about `splitTextGo` -/

theorem lastBreakIdx_lt_length (w : List Char) (i : Nat) :
    lastBreakIdx w = some i → i < w.length := by
  induction w generalizing i with
  | nil => intro h; simp [lastBreakIdx] at h
  | cons c cs ih =>
    intro h
    simp only [lastBreakIdx] at h
    cases hcs : lastBreakIdx cs with
    | some j =>
      rw [hcs] at h
      simp only [Option.some.injEq] at h
      subst h
      simpa using Nat.succ_lt_succ (ih j hcs)
    | none =>
      rw [hcs] at h
      by_cases hb : isBreakChar c
      · simp only [hb, if_true, Option.some.injEq] at h
        subst h
        exact Nat.succ_pos _
      · simp [hb] at h

theorem splitTextGo_flatten (length : Nat) (hlen : 1 ≤ length) :
    ∀ fuel s, s.length ≤ fuel → (splitTextGo length fuel s).flatten = s := by
  intro fuel
  induction fuel with
  | zero =>
    intro s hs
    have : s = [] := List.eq_nil_of_length_eq_zero (Nat.le_zero.mp hs)
    subst this; rfl
  | succ f ih =>
    intro s hs
    rw [splitTextGo]
    by_cases hnil : s = []
    · subst hnil; simp
    · rw [if_neg hnil]
      by_cases hshort : s.length ≤ length
      · rw [if_pos hshort]; simp
      · rw [if_neg hshort]
        have hslen : 1 ≤ s.length := by
          cases s with
          | nil => exact absurd rfl hnil
          | cons a t => simp
        cases hb : lastBreakIdx (s.take length) with
        | some i =>
          have hi : i < (s.take length).length :=
            lastBreakIdx_lt_length _ _ hb
          have hiw : (s.take length).length ≤ length := by
            simpa using List.length_take_le length s
          have hdrop : (s.drop (i + 1)).length ≤ f := by
            rw [List.length_drop]
            omega
          simp only [List.flatten_cons, ih _ hdrop]
          exact List.take_append_drop _ _
        | none =>
          have hdrop : (s.drop length).length ≤ f := by
            rw [List.length_drop]
            omega
          simp only [List.flatten_cons, ih _ hdrop]
          exact List.take_append_drop _ _

/-- C10 core: joining the chunks gives back the input. -/
theorem split_text_concat (text : String) (length : Nat) (hlen : 1 ≤ length) :
    concatStrings (split_text text length) = text := by
  unfold split_text
  by_cases h : text.length ≤ length
  · simp [h, concatStrings]
  · simp only [h, if_false]
    rw [concatStrings_map_mk, splitTextGo_flatten length hlen _ _ (Nat.le_refl _)]

theorem splitTextGo_chunk_le (length : Nat) :
    ∀ fuel s, ∀ c ∈ splitTextGo length fuel s, c.length ≤ length := by
  intro fuel
  induction fuel with
  | zero => intro s c hc; simp [splitTextGo] at hc
  | succ f ih =>
    intro s c hc
    rw [splitTextGo] at hc
    by_cases hnil : s = []
    · rw [if_pos hnil] at hc; simp at hc
    · rw [if_neg hnil] at hc
      by_cases hshort : s.length ≤ length
      · rw [if_pos hshort] at hc
        simp only [List.mem_singleton] at hc
        subst hc
        exact hshort
      · rw [if_neg hshort] at hc
        cases hb : lastBreakIdx (s.take length) with
        | some i =>
          rw [hb] at hc
          have hi : i < (s.take length).length := lastBreakIdx_lt_length _ _ hb
          have hiw : (s.take length).length ≤ length := by
            simpa using List.length_take_le length s
          rcases List.mem_cons.mp hc with h | h
          · subst h
            calc (s.take (i + 1)).length ≤ i + 1 := by
                  simpa using List.length_take_le (i + 1) s
              _ ≤ length := by omega
          · exact ih _ _ h
        | none =>
          rw [hb] at hc
          rcases List.mem_cons.mp hc with h | h
          · subst h
            simpa using List.length_take_le length s
          · exact ih _ _ h

/-- Every chunk produced by `split_text` has length at most `length`. -/
theorem split_text_chunk_le (text : String) (length : Nat) :
    ∀ c ∈ split_text text length, c.length ≤ length := by
  intro c hc
  unfold split_text at hc
  by_cases h : text.length ≤ length
  · rw [if_pos h] at hc
    simp only [List.mem_singleton] at hc
    subst hc
    exact h
  · rw [if_neg h] at hc
    rcases List.mem_map.mp hc with ⟨l, hl, rfl⟩
    exact splitTextGo_chunk_le length _ _ _ hl

theorem lastBreakIdx_append_single (ws : List Char) (c : Char) :
    lastBreakIdx (ws ++ [c]) =
      if isBreakChar c then some ws.length else lastBreakIdx ws := by
  induction ws with
  | nil => simp [lastBreakIdx]
  | cons x xs ih =>
    show lastBreakIdx (x :: (xs ++ [c])) = _
    rw [lastBreakIdx, ih]
    by_cases hb : isBreakChar c
    · simp [hb, lastBreakIdx]
    · simp only [hb, if_false]
      rfl

theorem takeWhile_len_le {α : Type} (p : α → Bool) (l : List α) :
    (l.takeWhile p).length ≤ l.length := by
  induction l with
  | nil => simp
  | cons x xs ih =>
    rw [List.takeWhile_cons]
    cases hp : p x <;> simp [hp] <;> omega

theorem specBreakPos_eq (w : List Char) :
    specBreakPos w = (lastBreakIdx w).map (· + 1) := by
  induction w using List.reverseRecOn with
  | nil => rfl
  | append_singleton ws c ih =>
    rw [lastBreakIdx_append_single]
    have hrev : (ws ++ [c]).reverse = c :: ws.reverse := by simp
    have hlen : (ws ++ [c]).length = ws.length + 1 := by simp
    cases hb : isBreakChar c with
    | true =>
      simp only [if_true]
      unfold specBreakPos
      rw [hrev, List.takeWhile_cons]
      simp [hb, hlen]
    | false =>
      simp only [Bool.false_eq_true, if_false]
      have ht : (c :: ws.reverse).takeWhile (fun x => !(isBreakChar x)) =
          c :: ws.reverse.takeWhile (fun x => !(isBreakChar x)) := by
        rw [List.takeWhile_cons]
        simp [hb]
      unfold specBreakPos at ih ⊢
      rw [hrev, ht]
      simp only [List.length_cons, hlen]
      have hle : (ws.reverse.takeWhile (fun x => !(isBreakChar x))).length ≤
          ws.length := by simpa using takeWhile_len_le (fun x => !(isBreakChar x)) ws.reverse
      set j := (ws.reverse.takeWhile (fun x => !(isBreakChar x))).length with hj
      by_cases hlt : j < ws.length
      · rw [if_pos (by omega : j + 1 < ws.length + 1)]
        rw [if_pos hlt] at ih
        rw [← ih]
        congr 1
        omega
      · rw [if_neg (by omega : ¬ j + 1 < ws.length + 1)]
        rw [if_neg hlt] at ih
        exact ih

theorem splitTextSpecGo_eq (length : Nat) :
    ∀ fuel s, splitTextSpecGo length fuel s = splitTextGo length fuel s := by
  intro fuel
  induction fuel with
  | zero => intro s; rfl
  | succ f ih =>
    intro s
    rw [splitTextSpecGo, splitTextGo, specBreakPos_eq]
    cases lastBreakIdx (s.take length) with
    | none => simp [ih]
    | some i => simp [ih]

theorem splitTextLastBreakSpec_eq (text : String) (length : Nat) :
    splitTextLastBreakSpec text length = split_text text length := by
  unfold splitTextLastBreakSpec split_text
  rw [splitTextSpecGo_eq]


/-- C2 (counterexample): the claim says code-span content is preserved up to
HTML-entity escaping and in particular that `` `*bold-looking*` `` renders
its asterisks literally inside a code element.  On the code, the final
marker-stripping pass (line 724) runs AFTER placeholder restoration
(lines 710-716), so the asterisks are removed even inside the `<code>`
element: the output is `<code>bold-looking</code>` and the string
`*bold-looking*` appears nowhere in it. -/
theorem claim_C2_counterexample :
    markdown_to_telegram_html "`*bold-looking*`" = "<code>bold-looking</code>" ∧
      containsSub (markdown_to_telegram_html "`*bold-looking*`").data
        "*bold-looking*".data = false := by
  constructor
  · rfl
  · rfl

/-- C2 (amended): code spans are protected from the transcoding passes
themselves — the content is substituted out before escaping and restored
HTML-escaped inside a `<pre>`/`<code>` element — but the final cleanup
pass also strips the leftover markup-marker characters `*`, `_`, `~`
inside the restored code element; `` `*bold-looking*` `` therefore renders
as `<code>bold-looking</code>`, with the asterisks removed. -/
theorem claim_C2 :
    markdown_to_telegram_html "`*bold-looking*`" = "<code>bold-looking</code>" := by
  rfl

/-- C4 (counterexample): the claim says one quota unit is restored iff
consumption had occurred for the cancelled generation.  User 7 is an
administrator: admission consumed nothing (`consumedOne = false`), yet
cancelling the live generation restores one unit (5 → 6). -/
theorem claim_C4_counterexample :
    (check_and_consume_limit 0 0 adminRowEx).allowed = true ∧
      (check_and_consume_limit 0 0 adminRowEx).consumedOne = false ∧
      (cancel_generation_callback ⟨true, false⟩ 7
          ⟨fun v => v == 7, fun _ => 5⟩).restored = true ∧
      (cancel_generation_callback ⟨true, false⟩ 7
          ⟨fun v => v == 7, fun _ => 5⟩).state.free 7 = 6 := by
  refine ⟨rfl, rfl, rfl, rfl⟩

/-- C4 (amended): the cancel-generation callback restores exactly one unit
of daily quota iff a live task for the user was found in the
active-requests map (and the ledger is reachable and the update does not
raise) — regardless of whether quota consumption had occurred for that
generation.  Cancelling when no live task exists is a no-op that restores
nothing, and after any cancellation the user has no live task, so a second
cancellation of the same generation never restores again. -/
theorem claim_C4 (env : CancelEnv) (uid : Nat) (s : BotState) :
    ((cancel_generation_callback env uid s).restored =
        (s.active uid && env.dbOk && !env.restoreRaises)) ∧
      ((cancel_generation_callback env uid s).restored = true →
        (cancel_generation_callback env uid s).state.free uid = s.free uid + 1) ∧
      ((cancel_generation_callback env uid s).restored = false →
        (cancel_generation_callback env uid s).state.free uid = s.free uid) ∧
      (s.active uid = false →
        (∀ v, (cancel_generation_callback env uid s).state.active v = s.active v) ∧
        (∀ v, (cancel_generation_callback env uid s).state.free v = s.free v) ∧
        (cancel_generation_callback env uid s).cancelled = false) ∧
      ((cancel_generation_callback env uid s).state.active uid = false) ∧
      (∀ env',
        (cancel_generation_callback env' uid
          (cancel_generation_callback env uid s).state).restored = false) := by
  unfold cancel_generation_callback
  by_cases ha : s.active uid
  · simp only [ha, if_true]
    by_cases hdb : env.dbOk && !env.restoreRaises
    · simp only [hdb, if_true]
      refine ⟨by simp [ha, hdb], fun _ => by simp, ?_, ?_, by simp,
        fun env' => by simp [cancel_generation_callback]⟩
      · intro h; simp at h
      · intro h; simp at h
    · have hdb' : (env.dbOk && !env.restoreRaises) = false := by
        cases h : (env.dbOk && !env.restoreRaises) with
        | true => exact absurd h hdb
        | false => rfl
      rw [if_neg (by simp [hdb'])]
      refine ⟨by simp [ha, hdb'], ?_, fun _ => rfl, ?_, by simp,
        fun env' => by simp [cancel_generation_callback]⟩
      · intro h; simp at h
      · intro h; simp at h
  · have ha' : s.active uid = false := by
      cases h : s.active uid with
      | true => exact absurd h ha
      | false => rfl
    rw [if_neg (by simp [ha'])]
    refine ⟨by simp [ha'], by intro h; simp at h, fun _ => rfl, ?_, ha', ?_⟩
    · intro _
      exact ⟨fun v => rfl, fun v => rfl, rfl⟩
    · intro env'
      simp [cancel_generation_callback, ha']

/-- C4 witness. -/
theorem claim_C4_witness :
    (cancel_generation_callback ⟨true, false⟩ 3
        ⟨fun v => v == 3, fun _ => 2⟩).state.free 3 = 2 + 1 :=
  (claim_C4 ⟨true, false⟩ 3 ⟨fun v => v == 3, fun _ => 2⟩).2.1 rfl

/-- C5: `check_and_consume_limit` admits an administrator and a user with
an active, unexpired subscription without touching the counter; an expired
subscription is deactivated and the bypass does not apply; otherwise, when
the stored reset date is missing, unparsable or earlier than today the
counter is first reset to 7 with today's date, and then one unit is
consumed and `True` returned exactly when the (possibly reset) counter is
positive, `False` otherwise. -/
theorem claim_C5 (now today : Int) (u : UserRow) :
    (u.is_admin = true →
      check_and_consume_limit now today u =
        ⟨true, false, false, false, u.free_messages_today, none⟩) ∧
    (u.is_admin = false → u.subscription_active = true →
      ∀ t, u.subscription_expires = some t → now < t →
        check_and_consume_limit now today u =
          ⟨true, false, false, false, u.free_messages_today, none⟩) ∧
    (u.is_admin = false → u.subscription_active = true →
      ∀ t, u.subscription_expires = some t → t ≤ now →
        (check_and_consume_limit now today u).deactivated = true) ∧
    (u.is_admin = false →
      (u.subscription_active = true →
        ∀ t, u.subscription_expires = some t → t ≤ now) →
      ((check_and_consume_limit now today u).didReset =
          resetExpected today u.last_free_reset_date ∧
        ((check_and_consume_limit now today u).didReset = true →
          (check_and_consume_limit now today u).finalResetDate = some today) ∧
        (∀ lim : Int,
          lim = (if resetExpected today u.last_free_reset_date then 7
                 else u.free_messages_today) →
          (0 < lim →
            (check_and_consume_limit now today u).allowed = true ∧
            (check_and_consume_limit now today u).consumedOne = true ∧
            (check_and_consume_limit now today u).finalFree = lim - 1) ∧
          (lim ≤ 0 →
            (check_and_consume_limit now today u).allowed = false ∧
            (check_and_consume_limit now today u).consumedOne = false)))) := by
  rcases u with ⟨adm, act, exp, rd, free⟩
  cases adm with
  | true =>
    refine ⟨fun _ => rfl, ?_, ?_, ?_⟩
    · intro h; exact absurd h (by simp)
    · intro h; exact absurd h (by simp)
    · intro h; exact absurd h (by simp)
  | false =>
    refine ⟨by intro h; exact absurd h (by simp), ?_, ?_, ?_⟩
    · -- active, unexpired subscription: bypass
      intro _ hact t hexp hlt
      have hact' : act = true := hact
      have hexp' : exp = some t := hexp
      subst hact'
      subst hexp'
      have h1 : decide (now < t) = true := decide_eq_true hlt
      simp [check_and_consume_limit, is_sub, h1]
    · -- active, expired subscription: deactivated
      intro _ hact t hexp hle
      have hact' : act = true := hact
      have hexp' : exp = some t := hexp
      subst hact'
      subst hexp'
      have h1 : is_sub now ⟨false, true, some t, rd, free⟩ = false := by
        simp only [is_sub, Bool.true_and]
        simp only [decide_eq_false_iff_not]
        omega
      have h2 : sub_expired now ⟨false, true, some t, rd, free⟩ = true := by
        simp only [sub_expired, Bool.true_and]
        exact decide_eq_true hle
      simp only [check_and_consume_limit, h1, h2, Bool.false_eq_true, if_false]
      split <;> split <;> rfl
    · -- no bypass: daily-limit path
      intro _ hnosub
      have hnosub' : act = true → ∀ t : Int, exp = some t → t ≤ now := hnosub
      have hns : is_sub now ⟨false, act, exp, rd, free⟩ = false := by
        cases act with
        | false => rfl
        | true =>
          cases exp with
          | none => rfl
          | some t =>
            have := hnosub' rfl t rfl
            simp only [is_sub, Bool.true_and]
            simp only [decide_eq_false_iff_not]
            omega
      have hneed : needs_reset today rd = resetExpected today rd := by
        cases rd with
        | missing => rfl
        | dateVal d => rfl
        | strParsable d => rfl
        | strUnparsable =>
          simp only [needs_reset, last_date, resetExpected]
          simp only [decide_eq_true_iff]
          omega
      simp only [check_and_consume_limit, hns, Bool.false_eq_true, if_false]
      rw [hneed]
      by_cases hr : resetExpected today rd
      · simp only [hr, if_true]
        rw [if_pos (by omega : (0 : Int) < 7)]
        refine ⟨by simp [hr], fun _ => rfl, ?_⟩
        intro lim hlim
        subst hlim
        exact ⟨fun _ => ⟨rfl, rfl, rfl⟩, fun h => absurd h (by omega)⟩
      · have hr' : resetExpected today rd = false := by
          cases h : resetExpected today rd with
          | true => exact absurd h hr
          | false => rfl
        simp only [hr', Bool.false_eq_true, if_false]
        by_cases hpos : (0 : Int) < free
        · rw [if_pos hpos]
          refine ⟨by simp [hr'], by intro h; simp at h, ?_⟩
          intro lim hlim
          subst hlim
          exact ⟨fun _ => ⟨rfl, rfl, rfl⟩, fun h => absurd hpos (by omega)⟩
        · rw [if_neg hpos]
          refine ⟨by simp [hr'], by intro h; simp at h, ?_⟩
          intro lim hlim
          subst hlim
          exact ⟨fun h => absurd h hpos, fun _ => ⟨rfl, rfl⟩⟩

/-- C5 witness. -/
theorem claim_C5_witness :
    (check_and_consume_limit 0 10
        ⟨false, false, none, ResetDate.dateVal 3, 0⟩).allowed = true ∧
      (check_and_consume_limit 0 10
        ⟨false, false, none, ResetDate.dateVal 3, 0⟩).consumedOne = true ∧
      (check_and_consume_limit 0 10
        ⟨false, false, none, ResetDate.dateVal 3, 0⟩).finalFree = 7 - 1 :=
  (((claim_C5 0 10 ⟨false, false, none, ResetDate.dateVal 3, 0⟩).2.2.2 rfl
      (fun habs => absurd habs (by simp))).2.2 7 (by decide)).1 (by norm_num)

/-- C6 (counterexample): the claim prefers the last newline over the last
space inside the window.  The code's backward scan stops at the last
newline-OR-space, whichever occurs later: on `"a\nb cdef"` with window 5
the code breaks at the space (`["a\nb ", "cdef"]`), the claimed rule at the
newline (`["a\n", "b ", "cdef"]`). -/
theorem claim_C6_counterexample :
    split_text "a\nb cdef" 5 = ["a\nb ", "cdef"] ∧
      splitTextNewlinePreferred "a\nb cdef" 5 = ["a\n", "b ", "cdef"] ∧
      split_text "a\nb cdef" 5 ≠ splitTextNewlinePreferred "a\nb cdef" 5 := by
  refine ⟨by decide, by decide, by decide⟩

/-- C6 (amended): for every text and positive `maxLength`: a text that fits
is returned as a one-element sequence; every chunk has length at most
`maxLength`; and each boundary is the position just after the last
newline-or-space character of the window — whichever kind occurs last —
else a hard cut at exactly `maxLength` (the independent formulation
`splitTextLastBreakSpec`). -/
theorem claim_C6 (text : String) (length : Nat) (hlen : 1 ≤ length) :
    (text.length ≤ length → split_text text length = [text]) ∧
      (∀ c ∈ split_text text length, c.length ≤ length) ∧
      split_text text length = splitTextLastBreakSpec text length := by
  refine ⟨?_, split_text_chunk_le text length, (splitTextLastBreakSpec_eq text length).symm⟩
  intro h
  unfold split_text
  rw [if_pos h]

/-- C6 witness. -/
theorem claim_C6_witness :
    ((("hi there everyone" : String).length ≤ 7 →
        split_text "hi there everyone" 7 = ["hi there everyone"]) ∧
      (∀ c ∈ split_text "hi there everyone" 7, c.length ≤ 7) ∧
      split_text "hi there everyone" 7 =
        splitTextLastBreakSpec "hi there everyone" 7) :=
  claim_C6 "hi there everyone" 7 (by decide)

/-- C10: concatenating the chunks of `split_text` in order reproduces the
input exactly — no characters dropped, duplicated or reordered. -/
theorem claim_C10 (text : String) (length : Nat) (hlen : 1 ≤ length) :
    concatStrings (split_text text length) = text :=
  split_text_concat text length hlen

/-- C10 witness. -/
theorem claim_C10_witness :
    concatStrings (split_text "a\nb cdefg hi" 4) = "a\nb cdefg hi" :=
  claim_C10 "a\nb cdefg hi" 4 (by decide)

/-! ### Stream-loop invariants (C1, C7, C9) -/

theorem strAppendEmpty (a : String) : a ++ "" = a := by
  rcases a with ⟨d⟩
  show String.mk (d ++ []) = String.mk d
  rw [List.append_nil]

theorem strAppendAssoc (a b c : String) : a ++ b ++ c = a ++ (b ++ c) := by
  rcases a with ⟨x⟩
  rcases b with ⟨y⟩
  rcases c with ⟨z⟩
  show String.mk (x ++ y ++ z) = String.mk (x ++ (y ++ z))
  rw [List.append_assoc]

theorem concatStrings_append_single (l : List String) (s : String) :
    concatStrings (l ++ [s]) = concatStrings l ++ s := by
  induction l with
  | nil =>
    show concatStrings [s] = "" ++ s
    show s ++ "" = "" ++ s
    rw [strAppendEmpty]
    rcases s with ⟨d⟩
    show String.mk d = String.mk ([] ++ d)
    rw [List.nil_append]
  | cons a t ih =>
    show a ++ concatStrings (t ++ [s]) = (a ++ concatStrings t) ++ s
    rw [ih, strAppendAssoc]

theorem finalizeSegment_some (o : MsgOracle) (s s' : StreamState) (evs : List Ev)
    (h : finalizeSegment o s = some (s', evs)) :
    s'.fullRaw = s.fullRaw ∧ s'.curText = s.curText ∧ s'.segments = s.segments ∧
      s'.msgCount = s.msgCount ∧ s'.nextMsgId = s.nextMsgId ∧
      (s.formattingFailed = true → s'.formattingFailed = true) := by
  simp only [finalizeSegment] at h
  split_ifs at h <;>
    (simp only [Option.some.injEq, Prod.mk.injEq] at h
     obtain ⟨h1, -⟩ := h
     subst h1
     exact ⟨rfl, rfl, rfl, rfl, rfl, by intro hf; first | exact hf | rfl⟩)

theorem finalizeSegment_evs (o : MsgOracle) (s s' : StreamState) (evs : List Ev)
    (h : finalizeSegment o s = some (s', evs)) :
    ∀ e ∈ evs, ∃ b p, e = Ev.editSent b p := by
  simp only [finalizeSegment] at h
  split_ifs at h <;>
    (simp only [Option.some.injEq, Prod.mk.injEq] at h
     obtain ⟨-, h2⟩ := h
     subst h2
     intro e he
     fin_cases he <;> exact ⟨_, _, rfl⟩)

theorem finalizeSegment_evs_raw (o : MsgOracle) (s s' : StreamState) (evs : List Ev)
    (hf : s.formattingFailed = true)
    (h : finalizeSegment o s = some (s', evs)) :
    ∀ e ∈ evs, evHtml e = false := by
  simp only [finalizeSegment] at h
  split_ifs at h <;>
    (simp only [Option.some.injEq, Prod.mk.injEq] at h
     obtain ⟨-, h2⟩ := h
     subst h2
     intro e he
     fin_cases he <;> simp [evHtml, hf])

theorem rotateSegment_res (o : MsgOracle) (chunk : String) (s : StreamState) :
    (stepState (rotateSegment o chunk s).1).fullRaw = s.fullRaw ∧
      (stepState (rotateSegment o chunk s).1).curText = chunk ∧
      (stepState (rotateSegment o chunk s).1).segments = s.segments ++ [s.curText] ∧
      (stepState (rotateSegment o chunk s).1).msgCount = s.msgCount + 1 ∧
      (stepState (rotateSegment o chunk s).1).formattingFailed = s.formattingFailed := by
  unfold rotateSegment
  split_ifs <;> exact ⟨rfl, rfl, rfl, rfl, rfl⟩

theorem rotateSegment_evs (o : MsgOracle) (chunk : String) (s : StreamState) :
    ∀ e ∈ (rotateSegment o chunk s).2, evHtml e = false := by
  unfold rotateSegment
  split_ifs <;> (intro e he; fin_cases he <;> rfl)

theorem midStreamEdit_res (o : MsgOracle) (s : StreamState) :
    ∃ s', (midStreamEdit o s).1 = StepOut.cont s' ∧
      s'.fullRaw = s.fullRaw ∧ s'.curText = s.curText ∧
      s'.segments = s.segments ∧ s'.msgCount = s.msgCount ∧
      (s.formattingFailed = true → s'.formattingFailed = true) := by
  unfold midStreamEdit
  by_cases ht : o.throttleOpen = true
  · rw [if_pos ht]
    by_cases hm : (!s.formattingFailed && o.midFmtRaises) = true
    · rw [if_pos hm]
      exact ⟨s, rfl, rfl, rfl, rfl, rfl, fun hf => hf⟩
    · rw [if_neg hm]
      cases he : o.midEdit with
      | ok => exact ⟨s, rfl, rfl, rfl, rfl, rfl, fun hf => hf⟩
      | retryAfter => exact ⟨s, rfl, rfl, rfl, rfl, rfl, fun hf => hf⟩
      | errLost => exact ⟨_, rfl, rfl, rfl, rfl, rfl, fun hf => hf⟩
      | errOther =>
        refine ⟨_, rfl, ?_⟩
        split_ifs <;>
          exact ⟨rfl, rfl, rfl, rfl, fun hf => by first | exact hf | rfl⟩
  · rw [if_neg ht]
    exact ⟨s, rfl, rfl, rfl, rfl, rfl, fun hf => hf⟩

theorem midStreamEdit_evs_raw (o : MsgOracle) (s : StreamState)
    (hf : s.formattingFailed = true) :
    ∀ e ∈ (midStreamEdit o s).2, evHtml e = false := by
  unfold midStreamEdit
  by_cases ht : o.throttleOpen = true
  · rw [if_pos ht]
    by_cases hm : (!s.formattingFailed && o.midFmtRaises) = true
    · rw [if_pos hm]
      intro e he
      cases he
    · rw [if_neg hm]
      cases hev : o.midEdit <;>
        (intro e he
         fin_cases he <;> simp [evHtml, hf])
  · rw [if_neg ht]
    intro e he
    cases he

theorem midStreamEdit_evs_edit (o : MsgOracle) (s : StreamState) :
    ∀ e ∈ (midStreamEdit o s).2, ∃ b p, e = Ev.editSent b p := by
  unfold midStreamEdit
  by_cases ht : o.throttleOpen = true
  · rw [if_pos ht]
    by_cases hm : (!s.formattingFailed && o.midFmtRaises) = true
    · rw [if_pos hm]
      intro e he
      cases he
    · rw [if_neg hm]
      cases hev : o.midEdit <;>
        (intro e he
         fin_cases he <;> exact ⟨_, _, rfl⟩)
  · rw [if_neg ht]
    intro e he
    cases he

theorem appendChunk_fields (f : Bool) (ch : String) (s : StreamState) :
    (appendChunk f ch s).fullRaw = s.fullRaw ++ ch ∧
      (appendChunk f ch s).curText = s.curText ∧
      (appendChunk f ch s).segments = s.segments ∧
      (appendChunk f ch s).msgCount = s.msgCount ∧
      (s.formattingFailed = true → (appendChunk f ch s).formattingFailed = true) := by
  unfold appendChunk
  split_ifs <;> exact ⟨rfl, rfl, rfl, rfl, by intro hf; first | exact hf | rfl⟩

theorem foldl_croStep_editOnly (evs : List Ev)
    (h : ∀ e ∈ evs, ∃ b p, e = Ev.editSent b p) :
    ∀ st, List.foldl croStep st evs = st := by
  induction evs with
  | nil => intro st; rfl
  | cons e t ih =>
    intro st
    obtain ⟨b, p, rfl⟩ := h e (List.mem_cons_self e t)
    have ht : ∀ x ∈ t, ∃ b p, x = Ev.editSent b p :=
      fun x hx => h x (List.mem_cons_of_mem _ hx)
    show List.foldl croStep (croStep st (Ev.editSent b p)) t = st
    have hstep : croStep st (Ev.editSent b p) = st := by
      cases st with
      | none => rfl
      | some v => rfl
    rw [hstep, ih ht]

theorem rotateSegment_cro (o : MsgOracle) (chunk : String) (s : StreamState)
    (r : Bool) :
    (List.foldl croStep (some (s.msgCount, r)) (rotateSegment o chunk s).2).isSome
        = true ∧
      (∀ s', (rotateSegment o chunk s).1 = StepOut.cont s' →
        ∃ r', List.foldl croStep (some (s.msgCount, r)) (rotateSegment o chunk s).2
            = some (s'.msgCount, r')) := by
  unfold rotateSegment
  split_ifs with h1 h2
  · refine ⟨?_, ?_⟩
    · show (List.foldl croStep _ [_, _]).isSome = true
      simp [croStep]
    · intro s' hs'
      simp only [StepOut.cont.injEq] at hs'
      subst hs'
      refine ⟨false, ?_⟩
      show List.foldl croStep (croStep (some (s.msgCount, r)) (Ev.removeAttempt s.msgCount)) [_] = _
      simp [croStep]
  · refine ⟨?_, ?_⟩
    · simp [croStep]
    · intro s' hs'
      cases hs'
  · refine ⟨?_, ?_⟩
    · simp [croStep]
    · intro s' hs'
      cases hs'

theorem overflowStep_cont (o : MsgOracle) (ch : String) (s2 s' : StreamState)
    (evs : List Ev) (h : overflowStep o ch s2 = (StepOut.cont s', evs)) :
    s'.fullRaw = s2.fullRaw ∧ s'.curText = ch ∧
      s'.segments = s2.segments ++ [s2.curText] := by
  unfold overflowStep at h
  cases hfin : finalizeSegment o s2 with
  | none =>
    rw [hfin] at h
    cases h
  | some pr =>
    rcases pr with ⟨s3, evs1⟩
    rw [hfin] at h
    simp only [Prod.mk.injEq] at h
    obtain ⟨h1, -⟩ := h
    obtain ⟨hfull, hcur, hsegs, -, -, -⟩ := finalizeSegment_some o s2 s3 evs1 hfin
    obtain ⟨rfull, rcur, rsegs, -, -⟩ := rotateSegment_res o ch s3
    rw [h1] at rfull rcur rsegs
    simp only [stepState] at rfull rcur rsegs
    exact ⟨by rw [rfull, hfull], by rw [rcur], by rw [rsegs, hsegs, hcur]⟩

theorem overflowStep_ff (o : MsgOracle) (ch : String) (s2 : StreamState)
    (hf : s2.formattingFailed = true) :
    (stepState (overflowStep o ch s2).1).formattingFailed = true ∧
      ∀ e ∈ (overflowStep o ch s2).2, evHtml e = false := by
  unfold overflowStep
  cases hfin : finalizeSegment o s2 with
  | none => exact ⟨hf, by intro e he; cases he⟩
  | some pr =>
    rcases pr with ⟨s3, evs1⟩
    obtain ⟨-, -, -, -, -, hmono⟩ := finalizeSegment_some o s2 s3 evs1 hfin
    have hf3 : s3.formattingFailed = true := hmono hf
    obtain ⟨-, -, -, -, rff⟩ := rotateSegment_res o ch s3
    refine ⟨?_, ?_⟩
    · show (stepState (rotateSegment o ch s3).1).formattingFailed = true
      rw [rff, hf3]
    · intro e he
      show evHtml e = false
      rcases List.mem_append.mp he with h | h
      · exact finalizeSegment_evs_raw o s2 s3 evs1 hf hfin e h
      · exact rotateSegment_evs o ch s3 e h

theorem overflowStep_cro (o : MsgOracle) (ch : String) (s2 : StreamState)
    (r : Bool) :
    (List.foldl croStep (some (s2.msgCount, r)) (overflowStep o ch s2).2).isSome
        = true ∧
      (∀ s', (overflowStep o ch s2).1 = StepOut.cont s' →
        ∃ r', List.foldl croStep (some (s2.msgCount, r)) (overflowStep o ch s2).2
            = some (s'.msgCount, r')) := by
  unfold overflowStep
  cases hfin : finalizeSegment o s2 with
  | none => exact ⟨rfl, by intro s' hs'; cases hs'⟩
  | some pr =>
    rcases pr with ⟨s3, evs1⟩
    dsimp only
    obtain ⟨-, -, -, hcnt, -, -⟩ := finalizeSegment_some o s2 s3 evs1 hfin
    have hedit := finalizeSegment_evs o s2 s3 evs1 hfin
    have hfold1 : List.foldl croStep (some (s2.msgCount, r)) evs1 =
        some (s2.msgCount, r) := foldl_croStep_editOnly evs1 hedit _
    obtain ⟨hiso, hcont⟩ := rotateSegment_cro o ch s3 r
    rw [hcnt] at hiso hcont
    constructor
    · rw [List.foldl_append, hfold1]
      exact hiso
    · intro s' hs'
      obtain ⟨r', hr'⟩ := hcont s' hs'
      exact ⟨r', by rw [List.foldl_append, hfold1]; exact hr'⟩

theorem strEmptyAppend (a : String) : "" ++ a = a := by
  rcases a with ⟨d⟩
  show String.mk ([] ++ d) = String.mk d
  rw [List.nil_append]

theorem stepChunk_cont_full (o : MsgOracle) (ch : String) (s s' : StreamState)
    (evs : List Ev) (h : stepChunk o ch s = (StepOut.cont s', evs)) :
    s'.fullRaw = s.fullRaw ++ ch ∧
      (concatStrings s.segments ++ s.curText = s.fullRaw →
        concatStrings s'.segments ++ s'.curText = s'.fullRaw) := by
  unfold stepChunk at h
  by_cases hc : o.cancelledHere = true
  · rw [if_pos hc] at h; cases h
  · rw [if_neg hc] at h
    by_cases hid : s.curMsgId = none
    · rw [if_pos hid] at h; cases h
    · rw [if_neg hid] at h
      obtain ⟨afull, acur, asegs, acnt, -⟩ := appendChunk_fields o.fmtCheckRaises ch s
      by_cases hov : TELEGRAM_MAX_LENGTH <
          (overflowCheck o.fmtCheckRaises (s.curText ++ ch)).length
      · rw [if_pos hov] at h
        obtain ⟨f1, f2, f3⟩ := overflowStep_cont o ch _ s' evs h
        refine ⟨by rw [f1, afull], ?_⟩
        intro hJ
        rw [f3, asegs, acur, concatStrings_append_single, f2, f1, afull, hJ]
      · rw [if_neg hov] at h
        obtain ⟨t', hcont, mfull, mcur, msegs, mcnt, -⟩ :=
          midStreamEdit_res o
            { appendChunk o.fmtCheckRaises ch s with curText := s.curText ++ ch }
        have h1 : StepOut.cont s' = StepOut.cont t' := by
          rw [← hcont, h]
        have ht : t' = s' := by
          cases h1; rfl
        subst ht
        dsimp only at mfull mcur msegs
        refine ⟨by rw [mfull, afull], ?_⟩
        intro hJ
        rw [msegs, asegs, mcur, mfull, afull, ← strAppendAssoc, hJ]

theorem stepChunk_ff (o : MsgOracle) (ch : String) (s : StreamState)
    (hf : s.formattingFailed = true) :
    (stepState (stepChunk o ch s).1).formattingFailed = true ∧
      ∀ e ∈ (stepChunk o ch s).2, evHtml e = false := by
  unfold stepChunk
  by_cases hc : o.cancelledHere = true
  · rw [if_pos hc]
    exact ⟨hf, by intro e he; cases he⟩
  · rw [if_neg hc]
    by_cases hid : s.curMsgId = none
    · rw [if_pos hid]
      exact ⟨hf, by intro e he; cases he⟩
    · rw [if_neg hid]
      obtain ⟨-, -, -, -, aff⟩ := appendChunk_fields o.fmtCheckRaises ch s
      by_cases hov : TELEGRAM_MAX_LENGTH <
          (overflowCheck o.fmtCheckRaises (s.curText ++ ch)).length
      · rw [if_pos hov]
        exact overflowStep_ff o ch _ (aff hf)
      · rw [if_neg hov]
        have hxff : ({ appendChunk o.fmtCheckRaises ch s with
            curText := s.curText ++ ch } : StreamState).formattingFailed = true :=
          aff hf
        obtain ⟨t', hcont, -, -, -, -, tmono⟩ :=
          midStreamEdit_res o
            { appendChunk o.fmtCheckRaises ch s with curText := s.curText ++ ch }
        refine ⟨?_, midStreamEdit_evs_raw o _ hxff⟩
        rw [hcont]
        exact tmono hxff

theorem stepChunk_cro (o : MsgOracle) (ch : String) (s : StreamState) (r : Bool) :
    (List.foldl croStep (some (s.msgCount, r)) (stepChunk o ch s).2).isSome = true ∧
      ∀ s', (stepChunk o ch s).1 = StepOut.cont s' →
        ∃ r', List.foldl croStep (some (s.msgCount, r)) (stepChunk o ch s).2 =
          some (s'.msgCount, r') := by
  unfold stepChunk
  by_cases hc : o.cancelledHere = true
  · rw [if_pos hc]
    exact ⟨rfl, by intro s' hs'; cases hs'⟩
  · rw [if_neg hc]
    by_cases hid : s.curMsgId = none
    · rw [if_pos hid]
      exact ⟨rfl, by intro s' hs'; cases hs'⟩
    · rw [if_neg hid]
      obtain ⟨-, -, -, acnt, -⟩ := appendChunk_fields o.fmtCheckRaises ch s
      by_cases hov : TELEGRAM_MAX_LENGTH <
          (overflowCheck o.fmtCheckRaises (s.curText ++ ch)).length
      · rw [if_pos hov]
        have := overflowStep_cro o ch (appendChunk o.fmtCheckRaises ch s) r
        rw [acnt] at this
        exact this
      · rw [if_neg hov]
        have hedit := midStreamEdit_evs_edit o
          { appendChunk o.fmtCheckRaises ch s with curText := s.curText ++ ch }
        have hfold := foldl_croStep_editOnly _ hedit (some (s.msgCount, r))
        refine ⟨by rw [hfold]; rfl, ?_⟩
        intro s' hs'
        obtain ⟨t', hcont, -, -, -, mcnt, -⟩ :=
          midStreamEdit_res o
            { appendChunk o.fmtCheckRaises ch s with curText := s.curText ++ ch }
        have h1 : StepOut.cont s' = StepOut.cont t' := by rw [← hcont, hs']
        have ht : t' = s' := by cases h1; rfl
        subst ht
        dsimp only at mcnt
        rw [mcnt, acnt] at *
        exact ⟨r, by rw [hfold, mcnt, acnt]⟩

theorem runLoop_finished (os : Nat → MsgOracle) :
    ∀ (chunks : List String) (i : Nat) (s : StreamState),
      (runLoop os chunks i s).2.2 = LoopExit.finished →
      (runLoop os chunks i s).1.fullRaw = s.fullRaw ++ concatStrings chunks ∧
        (concatStrings s.segments ++ s.curText = s.fullRaw →
          concatStrings (runLoop os chunks i s).1.segments ++
              (runLoop os chunks i s).1.curText =
            (runLoop os chunks i s).1.fullRaw) := by
  intro chunks
  induction chunks with
  | nil =>
    intro i s _
    exact ⟨(strAppendEmpty _).symm, fun hJ => hJ⟩
  | cons ch rest ih =>
    intro i s hfin
    rw [runLoop] at hfin ⊢
    cases hstep : stepChunk (os i) ch s with
    | mk out evs =>
      rw [hstep] at hfin
      cases out with
      | cont s' =>
        dsimp only at hfin ⊢
        obtain ⟨hfull, hJstep⟩ := stepChunk_cont_full (os i) ch s s' evs hstep
        obtain ⟨ihfull, ihJ⟩ := ih (i + 1) s' hfin
        constructor
        · rw [ihfull, hfull, strAppendAssoc]
          rfl
        · intro hJ
          exact ihJ (hJstep hJ)
      | broke s' => cases hfin
      | crashed s' => cases hfin
      | cancelledAt s' => cases hfin

theorem runLoop_ff (os : Nat → MsgOracle) :
    ∀ (chunks : List String) (i : Nat) (s : StreamState),
      s.formattingFailed = true →
      (runLoop os chunks i s).1.formattingFailed = true ∧
        ∀ e ∈ (runLoop os chunks i s).2.1, evHtml e = false := by
  intro chunks
  induction chunks with
  | nil =>
    intro i s hf
    exact ⟨hf, by intro e he; cases he⟩
  | cons ch rest ih =>
    intro i s hf
    rw [runLoop]
    have hsf := stepChunk_ff (os i) ch s hf
    cases hstep : stepChunk (os i) ch s with
    | mk out evs =>
      rw [hstep] at hsf
      cases out with
      | cont s' =>
        dsimp only
        obtain ⟨hff', hevs⟩ := hsf
        obtain ⟨ihff, ihevs⟩ := ih (i + 1) s' hff'
        refine ⟨ihff, ?_⟩
        intro e he
        rcases List.mem_append.mp he with h | h
        · exact hevs e h
        · exact ihevs e h
      | broke s' => exact hsf
      | crashed s' => exact hsf
      | cancelledAt s' => exact hsf

theorem runLoop_cro (os : Nat → MsgOracle) :
    ∀ (chunks : List String) (i : Nat) (s : StreamState) (r : Bool),
      (List.foldl croStep (some (s.msgCount, r))
          (runLoop os chunks i s).2.1).isSome = true := by
  intro chunks
  induction chunks with
  | nil => intro i s r; rfl
  | cons ch rest ih =>
    intro i s r
    rw [runLoop]
    have hsc := stepChunk_cro (os i) ch s r
    cases hstep : stepChunk (os i) ch s with
    | mk out evs =>
      rw [hstep] at hsc
      cases out with
      | cont s' =>
        dsimp only
        obtain ⟨-, hcont⟩ := hsc
        obtain ⟨r', hr'⟩ := hcont s' rfl
        rw [List.foldl_append, hr']
        exact ih (i + 1) s' r'
      | broke s' => exact hsc.1
      | crashed s' => exact hsc.1
      | cancelledAt s' => exact hsc.1

theorem postLoop_st (o : PostOracle) (s : StreamState) : (postLoop o s).st = s := by
  unfold postLoop
  split_ifs <;> rfl

theorem postLoop_evs_raw (o : PostOracle) (s : StreamState)
    (hf : s.formattingFailed = true) :
    ∀ e ∈ (postLoop o s).evs, evHtml e = false := by
  unfold postLoop
  split_ifs <;> (intro e he; fin_cases he <;> simp [evHtml, hf])

theorem postLoop_evs_edit (o : PostOracle) (s : StreamState) :
    ∀ e ∈ (postLoop o s).evs, ∃ b p, e = Ev.editSent b p := by
  unfold postLoop
  split_ifs <;> (intro e he; fin_cases he <;> exact ⟨_, _, rfl⟩)

/-- C1: when the provider's fragment sequence has been fully consumed, the
accumulated full raw answer equals the ordered concatenation of every
fragment, and the in-order concatenation of the raw texts of all segments
(each rotated-out segment followed by the final segment's text) reproduces
it exactly — regardless of oracle outcomes and of how many rotations
occurred. -/
theorem claim_C1 (env : HandlerEnv) (now today : Int) (u : UserRow) (uid : Nat)
    (active : Nat → Bool) (chunks : List String)
    (h : (message_handler env now today u uid active chunks).consumedAllFragments
        = true) :
    (message_handler env now today u uid active chunks).st.fullRaw =
        concatStrings chunks ∧
      concatStrings
            (message_handler env now today u uid active chunks).st.segments ++
          (message_handler env now today u uid active chunks).st.curText =
        (message_handler env now today u uid active chunks).st.fullRaw := by
  have hmain : (message_handler env now today u uid active chunks).st =
      (mainFlow env chunks).1 ∧ (mainFlow env chunks).2.2.2.2 = true := by
    simp only [message_handler] at h ⊢
    split_ifs at h ⊢ <;> first
      | exact ⟨rfl, h⟩
      | exact absurd h (by simp)
  obtain ⟨hst, hall⟩ := hmain
  have hfin : (runLoop env.os chunks 0 initialStream).2.2 = LoopExit.finished ∧
      (mainFlow env chunks).1 = (runLoop env.os chunks 0 initialStream).1 := by
    simp only [mainFlow] at hall
    cases hle : (runLoop env.os chunks 0 initialStream).2.2 <;>
      rw [hle] at hall <;> dsimp only at hall
    case finished =>
      refine ⟨rfl, ?_⟩
      simp only [mainFlow]
      rw [hle]
      exact postLoop_st _ _
    all_goals cases hall
  obtain ⟨hle, hm1⟩ := hfin
  obtain ⟨hfull, hJ⟩ := runLoop_finished env.os chunks 0 initialStream hle
  rw [hst, hm1]
  refine ⟨?_, hJ rfl⟩
  rw [hfull]
  exact strEmptyAppend _

set_option maxRecDepth 100000 in
/-- C1 witness. -/
theorem claim_C1_witness :
    (message_handler envOk 0 0 adminRowEx 5 (fun _ => false)
          ["Hel", "lo"]).st.fullRaw = concatStrings ["Hel", "lo"] ∧
      concatStrings
            (message_handler envOk 0 0 adminRowEx 5 (fun _ => false)
              ["Hel", "lo"]).st.segments ++
          (message_handler envOk 0 0 adminRowEx 5 (fun _ => false)
            ["Hel", "lo"]).st.curText =
        (message_handler envOk 0 0 adminRowEx 5 (fun _ => false)
          ["Hel", "lo"]).st.fullRaw :=
  claim_C1 envOk 0 0 adminRowEx 5 (fun _ => false) ["Hel", "lo"] (by rfl)

/-- C7: once the formatting-degraded flag is true it stays true for the
remainder of the generation, and every subsequent rendering — every
mid-stream or finalization edit issued by the loop and the final
post-loop rendering — uses raw untranscoded text (no HTML parse mode). -/
theorem claim_C7 (os : Nat → MsgOracle) (chunks : List String) (i : Nat)
    (s : StreamState) (po : PostOracle) (hf : s.formattingFailed = true) :
    (runLoop os chunks i s).1.formattingFailed = true ∧
      (∀ e ∈ (runLoop os chunks i s).2.1, evHtml e = false) ∧
      (∀ e ∈ (postLoop po (runLoop os chunks i s).1).evs, evHtml e = false) := by
  obtain ⟨h1, h2⟩ := runLoop_ff os chunks i s hf
  exact ⟨h1, h2, postLoop_evs_raw po _ h1⟩

/-- C7 witness. -/
theorem claim_C7_witness :
    (runLoop (fun _ => okOracle) ["a"] 0 degradedStream).1.formattingFailed
        = true ∧
      (∀ e ∈ (runLoop (fun _ => okOracle) ["a"] 0 degradedStream).2.1,
        evHtml e = false) ∧
      (∀ e ∈ (postLoop okPost
          (runLoop (fun _ => okOracle) ["a"] 0 degradedStream).1).evs,
        evHtml e = false) :=
  claim_C7 (fun _ => okOracle) ["a"] 0 degradedStream okPost rfl

theorem rotateSegment_removeFail (o : MsgOracle) (ch : String) (s : StreamState)
    (hrm : ¬ o.removeMarkup = EditRes.ok) :
    (rotateSegment o ch s).2 = [Ev.removeAttempt s.msgCount] ∧
      ∃ s', (rotateSegment o ch s).1 = StepOut.broke s' := by
  unfold rotateSegment
  rw [if_neg (fun hcon => hrm hcon.2)]
  exact ⟨rfl, ⟨_, rfl⟩⟩

theorem strLength_append (a b : String) : (a ++ b).length = a.length + b.length := by
  rcases a with ⟨x⟩
  rcases b with ⟨y⟩
  show (x ++ y).length = x.length + y.length
  exact List.length_append x y

theorem bigA_overflow :
    TELEGRAM_MAX_LENGTH <
      (overflowCheck rotFailOracle.fmtCheckRaises
        (initialStream.curText ++ bigA)).length := by
  have h1 : (overflowCheck rotFailOracle.fmtCheckRaises
      (initialStream.curText ++ bigA)).length =
      ((("" : String) ++ bigA) ++ "...").length := rfl
  rw [h1, strLength_append, strLength_append]
  have hb : bigA.length = 4001 := by
    show (List.replicate 4001 'a').length = 4001
    exact List.length_replicate 4001 'a'
  rw [hb]
  norm_num [TELEGRAM_MAX_LENGTH, String.length]

theorem stepChunk_bigA :
    stepChunk rotFailOracle bigA initialStream =
      (StepOut.broke brokeStateEx, [Ev.removeAttempt 1]) := by
  unfold stepChunk
  rw [if_neg (by decide : ¬ rotFailOracle.cancelledHere = true),
    if_neg (by decide : ¬ initialStream.curMsgId = none),
    if_pos bigA_overflow]
  rfl

theorem runLoop_bigA :
    runLoop envRotFail.os [bigA, "x"] 0 initialStream =
      (brokeStateEx, [Ev.removeAttempt 1], LoopExit.loopBroke) := by
  have h : stepChunk (envRotFail.os 0) bigA initialStream =
      (StepOut.broke brokeStateEx, [Ev.removeAttempt 1]) := stepChunk_bigA
  simp only [runLoop]
  rw [h]

theorem mainFlow_bigA :
    mainFlow envRotFail [bigA, "x"] =
      (brokeStateEx, [Ev.unitCreated 1, Ev.removeAttempt 1],
        HandlerExit.brokeEarly, true, false) := by
  simp only [mainFlow]
  rw [runLoop_bigA]
  rfl

/-- C9 (counterexample): the claim says a failed removal attempt is
tolerated — the next output unit is still created and streaming
continues.  On the code the removal and the new placeholder share one
`try`: when removal of unit 1's cancel affordance fails, unit 2 is never
created and the stream breaks with the second fragment unconsumed. -/
theorem claim_C9_counterexample :
    (message_handler envRotFail 0 0 adminRowEx 5 (fun _ => false)
          [bigA, "x"]).trace =
        [Ev.unitCreated 1, Ev.removeAttempt 1] ∧
      (message_handler envRotFail 0 0 adminRowEx 5 (fun _ => false)
          [bigA, "x"]).exit = HandlerExit.brokeEarly ∧
      (message_handler envRotFail 0 0 adminRowEx 5 (fun _ => false)
          [bigA, "x"]).consumedAllFragments = false := by
  simp only [message_handler]
  rw [if_neg (by decide), if_neg (by decide), if_neg (by decide),
    if_neg (by decide), if_neg (by decide), if_neg (by decide),
    if_neg (by decide)]
  rw [mainFlow_bigA]
  exact ⟨rfl, rfl, rfl⟩

/-- C9 (amended): unit N+1 is never created before removal of unit N's
cancel affordance has been attempted (the whole-trace automaton
`removalBeforeCreation` accepts every run); but a FAILED removal attempt
is not tolerated — no unit is created in that step and the streaming loop
breaks. -/
theorem claim_C9 :
    (∀ (env : HandlerEnv) (now today : Int) (u : UserRow) (uid : Nat)
        (active : Nat → Bool) (chunks : List String),
      removalBeforeCreation
          (message_handler env now today u uid active chunks).trace = true) ∧
    (∀ (o : MsgOracle) (ch : String) (s : StreamState),
      ¬ o.removeMarkup = EditRes.ok →
        (∀ m, Ev.unitCreated m ∉ (stepChunk o ch s).2) ∧
        (∀ m, Ev.removeAttempt m ∈ (stepChunk o ch s).2 →
          ∃ s', (stepChunk o ch s).1 = StepOut.broke s')) := by
  have hpost : ∀ env : HandlerEnv, ∀ chunks : List String,
      removalBeforeCreation (mainFlow env chunks).2.1 = true := by
    intro env chunks
    have hloop := runLoop_cro env.os chunks 0 initialStream false
    obtain ⟨v, hv⟩ := Option.isSome_iff_exists.mp hloop
    have hv1 : List.foldl croStep (some (1, false))
        (runLoop env.os chunks 0 initialStream).2.1 = some v := hv
    simp only [mainFlow]
    cases hle : (runLoop env.os chunks 0 initialStream).2.2 <;> dsimp only
    case finished =>
      show (List.foldl croStep (some (0, true))
        ((Ev.unitCreated 1 :: (runLoop env.os chunks 0 initialStream).2.1) ++
          (postLoop env.post (runLoop env.os chunks 0 initialStream).1).evs)).isSome
          = true
      rw [List.cons_append, List.foldl_cons, List.foldl_append]
      show (List.foldl croStep (List.foldl croStep (some (1, false))
        (runLoop env.os chunks 0 initialStream).2.1)
        (postLoop env.post (runLoop env.os chunks 0 initialStream).1).evs).isSome = true
      rw [hv1, foldl_croStep_editOnly _ (postLoop_evs_edit env.post _) (some v)]
      rfl
    case loopBroke =>
      show (List.foldl croStep (some (0, true))
        ((Ev.unitCreated 1 :: (runLoop env.os chunks 0 initialStream).2.1) ++
          (postLoop env.post (runLoop env.os chunks 0 initialStream).1).evs)).isSome
          = true
      rw [List.cons_append, List.foldl_cons, List.foldl_append]
      show (List.foldl croStep (List.foldl croStep (some (1, false))
        (runLoop env.os chunks 0 initialStream).2.1)
        (postLoop env.post (runLoop env.os chunks 0 initialStream).1).evs).isSome = true
      rw [hv1, foldl_croStep_editOnly _ (postLoop_evs_edit env.post _) (some v)]
      rfl
    all_goals
      (show (List.foldl croStep (some (0, true))
          (Ev.unitCreated 1 :: (runLoop env.os chunks 0 initialStream).2.1)).isSome
          = true
       rw [List.foldl_cons]
       show (List.foldl croStep (some (1, false))
          (runLoop env.os chunks 0 initialStream).2.1).isSome = true
       rw [hv1]
       rfl)
  constructor
  · intro env now today u uid active chunks
    simp only [message_handler]
    split_ifs <;> first | rfl | exact hpost env chunks
  · intro o ch s hrm
    unfold stepChunk
    by_cases hc : o.cancelledHere = true
    · rw [if_pos hc]
      exact ⟨fun m hm => (nomatch hm), fun m hm => (nomatch hm)⟩
    · rw [if_neg hc]
      by_cases hid : s.curMsgId = none
      · rw [if_pos hid]
        exact ⟨fun m hm => (nomatch hm), fun m hm => (nomatch hm)⟩
      · rw [if_neg hid]
        by_cases hov : TELEGRAM_MAX_LENGTH <
            (overflowCheck o.fmtCheckRaises (s.curText ++ ch)).length
        · rw [if_pos hov]
          unfold overflowStep
          cases hfin : finalizeSegment o (appendChunk o.fmtCheckRaises ch s) with
          | none =>
            exact ⟨fun m hm => (nomatch hm), fun m hm => (nomatch hm)⟩
          | some pr =>
            rcases pr with ⟨s3, evs1⟩
            dsimp only
            obtain ⟨hevs, s4, hs4⟩ := rotateSegment_removeFail o ch s3 hrm
            have hedit := finalizeSegment_evs o (appendChunk o.fmtCheckRaises ch s) s3 evs1 hfin
            refine ⟨?_, ?_⟩
            · intro m hm
              rcases List.mem_append.mp hm with hin | hin
              · obtain ⟨b, p, heq⟩ := hedit _ hin
                cases heq
              · rw [hevs] at hin
                simp at hin
            · intro m _
              exact ⟨s4, hs4⟩
        · rw [if_neg hov]
          have hedit := midStreamEdit_evs_edit o
            { appendChunk o.fmtCheckRaises ch s with curText := s.curText ++ ch }
          constructor
          · intro m hm
            obtain ⟨b, p, heq⟩ := hedit _ hm
            cases heq
          · intro m hm
            obtain ⟨b, p, heq⟩ := hedit _ hm
            cases heq

/-- C9 witness (for the removal-failure clause). -/
theorem claim_C9_witness :
    Ev.unitCreated 2 ∉ (stepChunk removeFailOracle bigA initialStream).2 := by
  have h := claim_C9.2 removeFailOracle bigA initialStream (by decide)
  exact h.1 2

/-- C3 (counterexample): the claim says a rejected concurrent message
causes no state change and consumes no quota.  A photo message from user
1 while user 1's generation is in flight: the handler consumes one quota
unit (5 → 4) BEFORE the busy check, and its `finally` then pops user 1's
in-flight registry entry. -/
theorem claim_C3_counterexample :
    (photo_handler photoEnvOk 0 50 nonAdminRow 1 (fun v => v == 1)
          ["hi"]).exit = PhotoExit.pRejectedBusy ∧
      ((photo_handler photoEnvOk 0 50 nonAdminRow 1 (fun v => v == 1)
          ["hi"]).consume.map ConsumeOutcome.consumedOne) = some true ∧
      ((photo_handler photoEnvOk 0 50 nonAdminRow 1 (fun v => v == 1)
          ["hi"]).consume.map ConsumeOutcome.finalFree) = some 4 ∧
      (photo_handler photoEnvOk 0 50 nonAdminRow 1 (fun v => v == 1)
          ["hi"]).active 1 = false := by
  refine ⟨rfl, rfl, rfl, rfl⟩

theorem mainFlow_exit_ne (env : HandlerEnv) (chunks : List String) :
    ¬ (mainFlow env chunks).2.2.1 = HandlerExit.rejectedBusy := by
  simp only [mainFlow]
  cases hle : (runLoop env.os chunks 0 initialStream).2.2 <;> dsimp only <;>
    (try split_ifs) <;> simp

/-- C3 (amended): for the TEXT handler the claim holds — while the user id
is a key of the active-requests map a second message is rejected with no
state change (map untouched, no quota consumed, no turn persisted, no task
registered), and once the key is absent a new message is not
busy-rejected.  For the PHOTO handler, admission is checked only after
quota consumption and inside the `try` whose `finally` pops the map key:
a rejected photo message still consumes quota per
`check_and_consume_limit` and removes the in-flight entry. -/
theorem claim_C3 :
    (∀ (env : HandlerEnv) (now today : Int) (u : UserRow) (uid : Nat)
        (active : Nat → Bool) (chunks : List String),
      env.dbOk = true → env.userOk = true → active uid = true →
        (message_handler env now today u uid active chunks).exit =
            HandlerExit.rejectedBusy ∧
          (∀ v, (message_handler env now today u uid active chunks).active v =
            active v) ∧
          (message_handler env now today u uid active chunks).consume = none ∧
          (message_handler env now today u uid active chunks).persistedUserTurn
            = false ∧
          (message_handler env now today u uid active chunks).registered
            = false) ∧
    (∀ (env : PhotoEnv) (now today : Int) (u : UserRow) (uid : Nat)
        (active : Nat → Bool) (chunks : List String),
      env.dbOk = true → env.userOk = true →
      (check_and_consume_limit now today u).allowed = true → active uid = true →
        (photo_handler env now today u uid active chunks).exit =
            PhotoExit.pRejectedBusy ∧
          (photo_handler env now today u uid active chunks).consume =
            some (check_and_consume_limit now today u) ∧
          (photo_handler env now today u uid active chunks).registered = false ∧
          (photo_handler env now today u uid active chunks).persistedUserTurn
            = false ∧
          (photo_handler env now today u uid active chunks).active uid = false) ∧
    (∀ (env : HandlerEnv) (now today : Int) (u : UserRow) (uid : Nat)
        (active : Nat → Bool) (chunks : List String),
      env.dbOk = true → env.userOk = true → active uid = false →
        (message_handler env now today u uid active chunks).exit ≠
          HandlerExit.rejectedBusy) := by
  refine ⟨?_, ?_, ?_⟩
  · intro env now today u uid active chunks hdb huser hact
    simp [message_handler, hdb, huser, hact]
  · intro env now today u uid active chunks hdb huser hallow hact
    simp [photo_handler, hdb, huser, hallow, hact]
  · intro env now today u uid active chunks hdb huser hact
    simp only [message_handler, hdb, huser, hact, Bool.not_true, Bool.or_self,
      Bool.false_eq_true, if_false]
    split_ifs <;> first
      | exact mainFlow_exit_ne env chunks
      | simp

/-- C3 witness. -/
theorem claim_C3_witness :
    (message_handler envOk 0 0 adminRowEx 5 (fun _ => true) []).exit =
      HandlerExit.rejectedBusy := by
  have h := claim_C3
  exact (h.1 envOk 0 0 adminRowEx 5 (fun _ => true) [] rfl rfl rfl).1

/-- C8: the claim says the user's entry is removed from the
active-requests map on EVERY exit path of a handler that registered it.
The code registers at line 871 but awaits `bot.send_chat_action` at line
873 — OUTSIDE the `try` whose `finally` (line 1100) does the cleanup — so
a Telegram error there terminates the handler with the entry still in the
map, permanently marking user 5 busy.  With the same environment but a
non-raising `send_chat_action` the entry is removed. -/
theorem claim_C8 :
    (message_handler envLeak 0 0 adminRowEx 5 (fun _ => false) []).registered
        = true ∧
      (message_handler envLeak 0 0 adminRowEx 5 (fun _ => false) []).exit =
        HandlerExit.leakedBeforeTry ∧
      (message_handler envLeak 0 0 adminRowEx 5 (fun _ => false) []).active 5
        = true ∧
      (message_handler envOk 0 0 adminRowEx 5 (fun _ => false) []).active 5
        = false := by
  refine ⟨rfl, rfl, rfl, rfl⟩

end TgBot
